import Mathlib

/-!
Verification of the aster perpetual-futures execution engine.

Shallow embedding of the core components (market-data kline aggregation,
signal engine, order/position lifecycle, risk controls) from
src/core/client.py, src/core/strategy.py, src/core/order.py and
src/core/main.py.  Prices, quantities and rates are modelled as rationals
(Python floats are decimal literals parsed exactly); values produced by
transcendental functions (log, sqrt) live in the reals.  Exchange calls are
modelled as oracle inputs.
-/

set_option maxHeartbeats 1000000

namespace Aster

/-! ## MarketCache kline aggregation (src/core/client.py)

The constant DERIVED_BAR_MINS and the closed-1m-bar branch of
AsterClient._handle_kline (client.py lines 346-385). -/

/-- Embeds client.py DERIVED_BAR_MINS = 10. -/
def DERIVED_BAR_MINS : Nat := 10

/-- Embeds the Kline1m dataclass (client.py lines 78-93); the field open is
renamed open_ because open is a Lean keyword. -/
structure Kline1m where
  start_time_ms : Int
  close_time_ms : Int
  open_ : ℚ
  high : ℚ
  low : ℚ
  close : ℚ
  base_vol : ℚ
  quote_vol : ℚ
  num_trades : Nat
  deriving Repr, DecidableEq, Inhabited

/-- Embeds the derived bar dict built at client.py lines 373-384. -/
structure Bar10 where
  start_time_ms : Int
  close_time_ms : Int
  open_ : ℚ
  high : ℚ
  low : ℚ
  close : ℚ
  base_vol : ℚ
  quote_vol : ℚ
  num_trades : Nat
  deriving Repr, DecidableEq, Inhabited

/-- Python max over a nonempty list of highs (client.py line 378); the empty
case is unreachable in the source, where the bucket has length
DERIVED_BAR_MINS. -/
def bucketHigh : List Kline1m → ℚ
  | [] => 0
  | x :: xs => xs.foldl (fun a y => max a y.high) x.high

/-- Python min over a nonempty list of lows (client.py line 379). -/
def bucketLow : List Kline1m → ℚ
  | [] => 0
  | x :: xs => xs.foldl (fun a y => min a y.low) x.low

/-- Embeds the bar10 dict construction (client.py lines 373-384):
open from the first bucket entry, close from the last, high/low as
max/min, volumes and trade counts summed. -/
def aggBar10 (bucket : List Kline1m) : Bar10 :=
  { start_time_ms := bucket.headI.start_time_ms
    close_time_ms := bucket.getLastI.close_time_ms
    open_ := bucket.headI.open_
    high := bucketHigh bucket
    low := bucketLow bucket
    close := bucket.getLastI.close
    base_vol := (bucket.map (fun x => x.base_vol)).sum
    quote_vol := (bucket.map (fun x => x.quote_vol)).sum
    num_trades := (bucket.map (fun x => x.num_trades)).sum }

/-- Embeds the closed-1m-bar branch of AsterClient._handle_kline
(client.py lines 366-385): append the closed bar to the per-symbol bucket,
pop the oldest element when the bucket exceeds DERIVED_BAR_MINS, and emit a
derived bar whenever the bucket holds exactly DERIVED_BAR_MINS bars.  The
bucket is never cleared after an emission. -/
def handle_kline_closed (bucket : List Kline1m) (ev : Kline1m) :
    List Kline1m × Option Bar10 :=
  let bucket1 := bucket ++ [ev]
  let bucket2 := if DERIVED_BAR_MINS < bucket1.length then bucket1.tail else bucket1
  if bucket2.length = DERIVED_BAR_MINS then (bucket2, some (aggBar10 bucket2))
  else (bucket2, none)

/-- Runs handle_kline_closed over a sequence of closed 1-minute bars from a
given bucket state, collecting the emitted derived bars in order. -/
def runKlineBucket : List Kline1m → List Kline1m → List Kline1m × List Bar10
  | bucket, [] => (bucket, [])
  | bucket, ev :: rest =>
    let step := handle_kline_closed bucket ev
    let tailRun := runKlineBucket step.1 rest
    (tailRun.1, step.2.toList ++ tailRun.2)

/-- All derived bars emitted by the market cache for a sequence of closed
1-minute bars, starting from the empty per-symbol bucket
(client.py line 136). -/
def derivedBars (bars : List Kline1m) : List Bar10 :=
  (runKlineBucket [] bars).2

/-- Modelled from the spec: the number of derived bars a strict tumbling
window emits, namely exactly one per DERIVED_BAR_MINS consecutive closed
bars.  This follows the claim wording and is compared against the code. -/
def tumblingBarCount (numClosedBars : Nat) : Nat :=
  numClosedBars / DERIVED_BAR_MINS

/-- Specification-side sliding aggregation: one derived bar per contiguous
window of DERIVED_BAR_MINS bars, in order of window start. -/
def slidingAgg : List Kline1m → List Bar10
  | [] => []
  | b :: rest =>
    (if DERIVED_BAR_MINS ≤ (b :: rest).length
      then [aggBar10 ((b :: rest).take DERIVED_BAR_MINS)] else [])
      ++ slidingAgg rest

/-- A concrete closed 1-minute bar used in counterexamples. -/
def mkBar (i : Nat) : Kline1m :=
  { start_time_ms := (i : Int) * 60000
    close_time_ms := (i : Int) * 60000 + 59999
    open_ := 100 + i
    high := 101 + i
    low := 99 + i
    close := 100 + i
    base_vol := 1 + i
    quote_vol := 100 + i
    num_trades := 1 }

lemma slidingAgg_cons_of_le {l : List Kline1m}
    (h : DERIVED_BAR_MINS ≤ l.length) :
    slidingAgg l = aggBar10 (l.take DERIVED_BAR_MINS) :: slidingAgg l.tail := by
  cases l with
  | nil => simp [DERIVED_BAR_MINS] at h
  | cons b rest =>
    simp only [List.length_cons] at h
    simp [slidingAgg, h]

lemma slidingAgg_length (l : List Kline1m) :
    (slidingAgg l).length = l.length + 1 - DERIVED_BAR_MINS := by
  induction l with
  | nil => simp [slidingAgg, DERIVED_BAR_MINS]
  | cons b rest ih =>
    simp only [slidingAgg, List.length_append, List.length_cons, ih]
    by_cases h : DERIVED_BAR_MINS ≤ rest.length + 1
    · rw [if_pos h]
      simp only [List.length_singleton]
      omega
    · rw [if_neg h]
      simp only [List.length_nil]
      omega

lemma slidingAgg_get? (l : List Kline1m) (j : Nat)
    (h : j + DERIVED_BAR_MINS ≤ l.length) :
    (slidingAgg l).get? j = some (aggBar10 ((l.drop j).take DERIVED_BAR_MINS)) := by
  induction l generalizing j with
  | nil => simp [DERIVED_BAR_MINS] at h
  | cons b rest ih =>
    have hlen : DERIVED_BAR_MINS ≤ (b :: rest).length := le_trans (Nat.le_add_left _ _) h
    rw [slidingAgg_cons_of_le hlen]
    cases j with
    | zero => simp
    | succ j =>
      simp only [List.get?_cons_succ, List.tail_cons, List.drop_succ_cons]
      exact ih j (by simpa [Nat.succ_add] using h)

lemma slidingAgg_nil_of_lt {l : List Kline1m}
    (h : l.length < DERIVED_BAR_MINS) : slidingAgg l = [] := by
  have : (slidingAgg l).length = 0 := by
    rw [slidingAgg_length]
    omega
  simpa [List.length_eq_zero] using this

lemma take_append_full {l r : List Kline1m}
    (h : l.length = DERIVED_BAR_MINS) :
    (l ++ r).take DERIVED_BAR_MINS = l := by
  rw [List.take_append_of_le_length (le_of_eq h.symm),
    List.take_of_length_le (le_of_eq h)]

lemma runKlineBucket_emits (bars : List Kline1m) :
    ∀ bucket : List Kline1m, bucket.length ≤ DERIVED_BAR_MINS →
      (runKlineBucket bucket bars).2 =
        (slidingAgg (bucket ++ bars)).drop
          (if bucket.length = DERIVED_BAR_MINS then 1 else 0) := by
  induction bars with
  | nil =>
    intro bucket hb
    by_cases h : bucket.length = DERIVED_BAR_MINS
    · rw [runKlineBucket, if_pos h, List.append_nil,
        slidingAgg_cons_of_le (le_of_eq h.symm)]
      simp only [List.drop_one, List.tail_cons]
      have htail : (slidingAgg bucket.tail) = [] := by
        apply slidingAgg_nil_of_lt
        rw [List.length_tail, h]
        decide
      exact htail.symm
    · have hlt : bucket.length < DERIVED_BAR_MINS := lt_of_le_of_ne hb h
      rw [runKlineBucket, if_neg h, List.append_nil, List.drop_zero,
        slidingAgg_nil_of_lt hlt]
  | cons ev rest ih =>
    intro bucket hb
    rw [runKlineBucket]
    by_cases hfull : bucket.length = DERIVED_BAR_MINS
    · -- full bucket: pop the oldest bar, emit the aggregate of the new bucket
      have hne : bucket ≠ [] := by
        intro hnil; rw [hnil] at hfull; simp [DERIVED_BAR_MINS] at hfull
      have hlen1 : (bucket ++ [ev]).length = DERIVED_BAR_MINS + 1 := by
        simp [hfull]
      have hpop : DERIVED_BAR_MINS < (bucket ++ [ev]).length := by omega
      have htail_len : ((bucket ++ [ev]).tail).length = DERIVED_BAR_MINS := by
        rw [List.length_tail, hlen1]
        omega
      have hstep : handle_kline_closed bucket ev =
          ((bucket ++ [ev]).tail, some (aggBar10 ((bucket ++ [ev]).tail))) := by
        rw [handle_kline_closed]
        simp only [if_pos hpop, if_pos htail_len]
      rw [hstep]
      simp only [Option.toList_some, List.singleton_append]
      rw [ih _ (le_of_eq htail_len), if_pos htail_len, if_pos hfull]
      have happ : (bucket ++ [ev]).tail ++ rest = (bucket ++ ev :: rest).tail := by
        cases bucket with
        | nil => exact absurd rfl hne
        | cons x xs => simp
      have hcons : DERIVED_BAR_MINS ≤ (bucket ++ ev :: rest).length := by
        simp only [List.length_append, List.length_cons]
        omega
      have hmid : DERIVED_BAR_MINS ≤ ((bucket ++ [ev]).tail ++ rest).length := by
        simp only [List.length_append, htail_len]
        omega
      rw [happ, slidingAgg_cons_of_le hcons, List.drop_one (l := aggBar10 _ :: _),
        List.tail_cons, ← happ, slidingAgg_cons_of_le hmid, List.drop_one,
        List.tail_cons]
      congr 1
      exact congrArg aggBar10 (take_append_full htail_len).symm
    · -- bucket below capacity: no pop
      have hlt : bucket.length < DERIVED_BAR_MINS := lt_of_le_of_ne hb hfull
      have hnopop : ¬ DERIVED_BAR_MINS < (bucket ++ [ev]).length := by
        simp only [List.length_append, List.length_singleton]
        omega
      by_cases hemit : (bucket ++ [ev]).length = DERIVED_BAR_MINS
      · have hstep : handle_kline_closed bucket ev =
            (bucket ++ [ev], some (aggBar10 (bucket ++ [ev]))) := by
          rw [handle_kline_closed]
          simp only [if_neg hnopop, if_pos hemit]
        rw [hstep]
        simp only [Option.toList_some, List.singleton_append]
        rw [ih _ (le_of_eq hemit), if_pos hemit, if_neg hfull, List.drop_zero]
        have happ : bucket ++ [ev] ++ rest = bucket ++ ev :: rest := by simp
        rw [← happ]
        have hcons : DERIVED_BAR_MINS ≤ (bucket ++ [ev] ++ rest).length := by
          simp only [List.length_append, List.length_singleton]
          simp only [List.length_append, List.length_singleton] at hemit
          omega
        rw [slidingAgg_cons_of_le hcons, List.drop_one, List.tail_cons]
        congr 1
        exact congrArg aggBar10 (take_append_full hemit).symm
      · have hstep : handle_kline_closed bucket ev = (bucket ++ [ev], none) := by
          rw [handle_kline_closed]
          simp only [if_neg hnopop, if_neg hemit]
        rw [hstep]
        simp only [Option.toList_none, List.nil_append]
        have hle : (bucket ++ [ev]).length ≤ DERIVED_BAR_MINS := by
          simp only [List.length_append, List.length_singleton]
          omega
        rw [ih _ hle, if_neg hemit, if_neg hfull]
        congr 1
        simp

lemma derivedBars_eq_slidingAgg (bars : List Kline1m) :
    derivedBars bars = slidingAgg bars := by
  have h := runKlineBucket_emits bars [] (by simp [DERIVED_BAR_MINS])
  simpa [derivedBars, DERIVED_BAR_MINS] using h

/-- C1 counterexample: for eleven closed 1-minute bars the cache emits two
derived bars, while a strict tumbling window (exactly one derived bar per
ten consecutive closed bars, no shared constituents) emits exactly one:
with only eleven bars the two emitted windows necessarily share
constituent bars. -/
theorem C1_tumbling_counterexample :
    (derivedBars ((List.range 11).map mkBar)).length = 2 ∧
      tumblingBarCount ((List.range 11).map mkBar).length = 1 := by
  constructor
  · rw [derivedBars_eq_slidingAgg, slidingAgg_length]
    rfl
  · rfl

/-- C1 amended: kline aggregation is a sliding (not tumbling) window.  From
the empty bucket, the cache emits one derived 10-minute bar per closed
1-minute bar from the tenth onward, the j-th emitted bar aggregating bars
j..j+9 (so consecutive derived bars share nine constituent bars), with
open = the first bar of the window, close = the last bar, high = max of
highs, low = min of lows, and base/quote volumes summed. -/
theorem C1_sliding_window (bars : List Kline1m) :
    (derivedBars bars).length = bars.length + 1 - DERIVED_BAR_MINS ∧
      ∀ j, j + DERIVED_BAR_MINS ≤ bars.length →
        (derivedBars bars).get? j =
          some (aggBar10 ((bars.drop j).take DERIVED_BAR_MINS)) := by
  rw [derivedBars_eq_slidingAgg]
  exact ⟨slidingAgg_length bars, fun j hj => slidingAgg_get? bars j hj⟩

/-- C1 amended witness: the sliding-window theorem evaluated on eleven
concrete bars, checking the count and the second emitted window. -/
theorem C1_sliding_window_witness :
    (derivedBars ((List.range 11).map mkBar)).length = 11 + 1 - DERIVED_BAR_MINS ∧
      (derivedBars ((List.range 11).map mkBar)).get? 1 =
        some (aggBar10 (((((List.range 11).map mkBar)).drop 1).take DERIVED_BAR_MINS)) := by
  have h := C1_sliding_window ((List.range 11).map mkBar)
  exact ⟨by simpa using h.1, h.2 1 (by simp [DERIVED_BAR_MINS])⟩

/-! ## SignalEngine (src/core/strategy.py) -/

/-- Order or signal side. -/
inductive Side where
  | BUY
  | SELL
  deriving Repr, DecidableEq, Inhabited

/-- Embeds strategy.py _bps_ret (lines 18-21). -/
def bps_ret (px ref : ℚ) : ℚ :=
  if ref = 0 then 0 else 10000 * (px / ref - 1)

/-- Embeds strategy.py _rs_var (lines 24-29): the per-bar Rogers-Satchell
variance component, 0 when any OHLC input is nonpositive.  OHLC inputs are
rationals, the logarithms live in the reals. -/
noncomputable def rs_var (o h l c : ℚ) : ℝ :=
  if o ≤ 0 ∨ h ≤ 0 ∨ l ≤ 0 ∨ c ≤ 0 then 0
  else Real.log ((h : ℝ) / (o : ℝ)) * Real.log ((h : ℝ) / (c : ℝ))
    + Real.log ((l : ℝ) / (o : ℝ)) * Real.log ((l : ℝ) / (c : ℝ))

/-- Embeds strategy.py _rs_vol_bps (lines 32-39). -/
noncomputable def rs_vol_bps (rs_vars : List ℝ) : Option ℝ :=
  if rs_vars = [] then none
  else
    let mean_var := rs_vars.sum / (rs_vars.length : ℝ)
    let mean_clipped := if mean_var < 0 then 0 else mean_var
    some (10000 * Real.sqrt mean_clipped)

/-- Embeds the StrategyConfig dataclass (strategy.py lines 42-49). -/
structure StrategyConfig where
  k : ℚ
  t_window : Nat
  n : ℚ
  v_window : Nat
  max_spread : ℚ
  max_funding_abs_bps : ℚ

/-- Bar snapshot fields as read by Strategy.on_second through _safe_float;
none models a missing or unparseable field. -/
structure BarInput where
  is_closed : Bool
  close_time_ms : Int
  open_ : Option ℚ
  high : Option ℚ
  low : Option ℚ
  close : Option ℚ
  base_vol : Option ℚ

/-- BBO snapshot fields as read by Strategy._check_blockers. -/
structure BboInput where
  bid_px : Option ℚ
  ask_px : Option ℚ
  mid : Option ℚ

/-- Funding snapshot fields as read by the strategy and the control loop. -/
structure FundingInput where
  funding_rate : Option ℚ
  mark_px : Option ℚ

/-- The blocker detail dict built by Strategy._check_blockers. -/
structure BlockerDetail where
  spread_ok : Bool
  spread : Option ℚ
  spread_bps : Option ℚ
  funding_bps : Option ℚ
  funding_ok : Bool
  opening_loss_bps : Option ℚ
  opening_ok : Bool

/-- Embeds Strategy._check_blockers (strategy.py lines 153-210). -/
def check_blockers (cfg : StrategyConfig) (bbo : Option BboInput)
    (funding : Option FundingInput) (side : Option Side) :
    Bool × BlockerDetail :=
  let bid := bbo.bind (fun b => b.bid_px)
  let ask := bbo.bind (fun b => b.ask_px)
  let mid0 := bbo.bind (fun b => b.mid)
  let mid : Option ℚ :=
    match mid0 with
    | some m => some m
    | none =>
      match bid, ask with
      | some b, some a => some ((1 / 2 : ℚ) * (b + a))
      | _, _ => none
  let spreadPart : Bool × Option ℚ × Option ℚ :=
    match bid, ask, mid with
    | some b, some a, some m =>
      if m ≤ 0 then (false, none, none)
      else
        let spread := a - b
        let spread_bps := 10000 * spread / m
        (decide (spread ≤ cfg.max_spread), some spread, some spread_bps)
    | _, _, _ => (false, none, none)
  let spread_ok := spreadPart.1
  let spread := spreadPart.2.1
  let spread_bps := spreadPart.2.2
  let fr := funding.bind (fun f => f.funding_rate)
  let fundingPart : Bool × Option ℚ :=
    match fr with
    | none => (false, none)
    | some f =>
      let funding_bps := f * 10000
      (decide (|funding_bps| ≤ cfg.max_funding_abs_bps), some funding_bps)
  let funding_ok := fundingPart.1
  let funding_bps := fundingPart.2
  let mark := funding.bind (fun f => f.mark_px)
  let openingPart : Bool × Option ℚ :=
    match side with
    | none => (true, none)
    | some sd =>
      match mark, bid, ask with
      | some mk, some b, some a =>
        let opening_loss_bps :=
          if sd = Side.BUY then bps_ret a mk else bps_ret mk b
        match spread_bps with
        | none => (false, some opening_loss_bps)
        | some sb =>
          let max_opening_loss_bps := min (10 : ℚ) (max 5 (2 * sb))
          (decide (opening_loss_bps ≤ max_opening_loss_bps), some opening_loss_bps)
      | _, _, _ => (false, none)
  let opening_ok := openingPart.1
  let opening_loss_bps := openingPart.2
  (spread_ok && funding_ok && opening_ok,
    { spread_ok := spread_ok
      spread := spread
      spread_bps := spread_bps
      funding_bps := funding_bps
      funding_ok := funding_ok
      opening_loss_bps := opening_loss_bps
      opening_ok := opening_ok })

/-- Embeds the per-symbol mutable state of Strategy (strategy.py
lines 57-64): the two bounded deques, the de-dup key and the previous
close. -/
structure StratState where
  rs_vars : List ℝ
  vols : List ℚ
  last_closed_close_ms : Int
  prev_close : Option ℚ

/-- Append to a deque of the given maxlen, dropping from the left on
overflow. -/
def pushMax {α : Type} (cap : Nat) (xs : List α) (x : α) : List α :=
  let ys := xs ++ [x]
  if cap < ys.length then ys.drop (ys.length - cap) else ys

/-- The value returned by Strategy.on_second when it is not Python None. -/
inductive StratResult where
  | missingOhlcv
  | firstCloseSeen
  | warmingUp (ret_bps : ℚ) (rs_vol : Option ℝ) (avg_base_vol : Option ℚ)
      (rs_bars rs_required vol_bars vol_required : Nat)
  | decision (ret_bps : ℚ) (rs_vol : Option ℝ) (bar_base_vol : ℚ)
      (avg_base_vol : Option ℚ) (indicator1 indicator2 : Bool)
      (side : Option Side) (blockers_ok : Bool) (blockers : BlockerDetail)
      (enter : Bool)

/-- The enter flag carried by a Strategy.on_second result; only a full
decision dict has one. -/
def resultEnter : StratResult → Bool
  | .decision _ _ _ _ _ _ _ _ _ ent => ent
  | _ => false

/-- Embeds Strategy.on_second (strategy.py lines 66-151) as a state
transition: returns the emitted report (none models Python None) and the
updated per-symbol state. -/
noncomputable def on_second (cfg : StrategyConfig) (s : StratState)
    (bars_1m : Option BarInput) (bbo : Option BboInput)
    (funding : Option FundingInput) : Option StratResult × StratState :=
  match bars_1m with
  | none => (none, s)
  | some bars =>
    if bars.is_closed = false ∨ bars.close_time_ms ≤ s.last_closed_close_ms then
      (none, s)
    else
      let s1 := { s with last_closed_close_ms := bars.close_time_ms }
      match bars.open_, bars.high, bars.low, bars.close, bars.base_vol with
      | some o, some h, some l, some c, some v =>
        let s2 := { s1 with
          rs_vars := pushMax (max 2 cfg.t_window) s1.rs_vars (rs_var o h l c)
          vols := pushMax (max 2 cfg.v_window) s1.vols v }
        let s3 := { s2 with prev_close := some c }
        match s.prev_close with
        | none => (some .firstCloseSeen, s3)
        | some pc =>
          if pc ≤ 0 then (some .firstCloseSeen, s3)
          else
            let ret_bps := bps_ret c pc
            let rs_vol_part := rs_vol_bps s3.rs_vars
            let avg_vol_part : Option ℚ :=
              if s3.vols = [] then none
              else some (s3.vols.sum / (s3.vols.length : ℚ))
            if ¬ (cfg.t_window ≤ s3.rs_vars.length ∧ cfg.v_window ≤ s3.vols.length) then
              (some (.warmingUp ret_bps rs_vol_part avg_vol_part
                s3.rs_vars.length cfg.t_window s3.vols.length cfg.v_window), s3)
            else
              let rs_vol := rs_vol_bps s3.rs_vars
              let avg_vol : Option ℚ :=
                if s3.vols = [] then none
                else some (s3.vols.sum / (s3.vols.length : ℚ))
              let sideInd : Option Side × Bool :=
                match rs_vol with
                | none => (none, false)
                | some rv =>
                  let thresh : ℝ := (cfg.k : ℝ) * rv
                  if thresh < (ret_bps : ℝ) then (some .BUY, true)
                  else if (ret_bps : ℝ) < -thresh then (some .SELL, true)
                  else (none, false)
              let indicator2 :=
                match avg_vol with
                | none => false
                | some av => decide (0 < av ∧ cfg.n * av < v)
              let cb := check_blockers cfg bbo funding sideInd.1
              let should_enter :=
                sideInd.2 && indicator2 && cb.1 && sideInd.1.isSome
              (some (.decision ret_bps rs_vol v avg_vol sideInd.2 indicator2
                sideInd.1 cb.1 cb.2 should_enter), s3)
      | _, _, _, _, _ => (some .missingOhlcv, s1)

lemma pushMax_ne_nil {α : Type} (cap : Nat) (hc : 0 < cap) (xs : List α)
    (x : α) : pushMax cap xs x ≠ [] := by
  unfold pushMax
  simp only
  split
  · intro hnil
    have hlen := congrArg List.length hnil
    simp only [List.length_drop, List.length_nil] at hlen
    omega
  · simp

lemma pushMax_length_pos {α : Type} (cap : Nat) (hc : 0 < cap) (xs : List α)
    (x : α) : pushMax cap xs x ≠ [] := pushMax_ne_nil cap hc xs x

/-- On a decision result, on_second has already required both windows to be
at capacity; the lemma exposes this from the returned pair. -/
lemma on_second_decision_full (cfg : StrategyConfig) (s : StratState)
    (bars : Option BarInput) (bbo : Option BboInput)
    (funding : Option FundingInput) (res : Option StratResult)
    (st : StratState) (heq : on_second cfg s bars bbo funding = (res, st)) :
    ∀ r, res = some r → resultEnter r = true →
      cfg.t_window ≤ st.rs_vars.length ∧ cfg.v_window ≤ st.vols.length := by
  intro r hres hent
  cases bars with
  | none =>
    rw [on_second] at heq
    cases heq
    simp at hres
  | some b =>
    rw [on_second] at heq
    simp only [] at heq
    split at heq
    · cases heq
      simp at hres
    · split at heq
      · split at heq
        · cases heq
          cases hres
          simp [resultEnter] at hent
        · split at heq
          · cases heq
            cases hres
            simp [resultEnter] at hent
          · split at heq
            · cases heq
              cases hres
              simp [resultEnter] at hent
            · next hready =>
              cases heq
              cases hres
              exact not_not.mp hready
      · cases heq
        cases hres
        simp [resultEnter] at hent

lemma zero_lt_max_two (n : Nat) : 0 < max 2 n :=
  lt_of_lt_of_le (by norm_num) (le_max_left 2 n)

/-- Strategy configuration used in concrete signal-engine runs:
k=1.3, T=2, n=1.3, V=2 with the default blocker bounds. -/
def c2Cfg : StrategyConfig :=
  { k := 13 / 10, t_window := 2, n := 13 / 10, v_window := 2,
    max_spread := 1 / 5, max_funding_abs_bps := 3 / 2 }

/-- Fresh per-symbol signal-engine state. -/
def freshStratState : StratState :=
  { rs_vars := [], vols := [], last_closed_close_ms := 0, prev_close := none }

/-- A valid first closed bar. -/
def c2Bar : BarInput :=
  { is_closed := true, close_time_ms := 60000, open_ := some 100,
    high := some 101, low := some 99, close := some 100, base_vol := some 5 }

/-- C2 counterexample: on the first valid closed bar the rolling windows are
not yet full (length 1 < T = 2), yet on_second returns the first-close
report, not a warming-up report, so the claim that a call with a non-full
window always returns a warming-up report fails. -/
theorem C2_first_close_counterexample :
    (on_second c2Cfg freshStratState (some c2Bar) none none).1 =
        some StratResult.firstCloseSeen ∧
      (on_second c2Cfg freshStratState (some c2Bar) none none).2.rs_vars.length
          < c2Cfg.t_window ∧
      resultEnter StratResult.firstCloseSeen = false := by
  refine ⟨rfl, ?_, rfl⟩
  show (on_second c2Cfg freshStratState (some c2Bar) none none).2.rs_vars.length < 2
  rw [show (on_second c2Cfg freshStratState (some c2Bar) none none).2.rs_vars.length
      = 1 from rfl]
  norm_num

/-- C2 amended: the decision dict (the only result carrying an enter flag,
hence the only way enter=true can be reported) is returned only when both
rolling windows have at least T and V entries after the push; and whenever
the bar is a new valid closed bar, a prior positive close exists, and
either window is below capacity, the call returns the warming-up report
with the partial values.  (On the first valid closed bar the code instead
returns a first-close report, and on missing OHLCV an error report.) -/
theorem C2_enter_requires_full_windows :
    (∀ (cfg : StrategyConfig) (s : StratState) (bars : Option BarInput)
        (bbo : Option BboInput) (funding : Option FundingInput) (r : StratResult),
        (on_second cfg s bars bbo funding).1 = some r →
        resultEnter r = true →
        cfg.t_window ≤ (on_second cfg s bars bbo funding).2.rs_vars.length ∧
          cfg.v_window ≤ (on_second cfg s bars bbo funding).2.vols.length) ∧
    (∀ (cfg : StrategyConfig) (s : StratState) (b : BarInput)
        (bbo : Option BboInput) (funding : Option FundingInput) (o h l c v pc : ℚ),
        b.is_closed = true →
        s.last_closed_close_ms < b.close_time_ms →
        b.open_ = some o → b.high = some h → b.low = some l → b.close = some c →
        b.base_vol = some v → s.prev_close = some pc → 0 < pc →
        ¬ (cfg.t_window ≤ (pushMax (max 2 cfg.t_window) s.rs_vars (rs_var o h l c)).length ∧
            cfg.v_window ≤ (pushMax (max 2 cfg.v_window) s.vols v).length) →
        (on_second cfg s (some b) bbo funding).1 =
          some (StratResult.warmingUp (bps_ret c pc)
            (rs_vol_bps (pushMax (max 2 cfg.t_window) s.rs_vars (rs_var o h l c)))
            (some ((pushMax (max 2 cfg.v_window) s.vols v).sum /
              ((pushMax (max 2 cfg.v_window) s.vols v).length : ℚ)))
            (pushMax (max 2 cfg.t_window) s.rs_vars (rs_var o h l c)).length
            cfg.t_window
            (pushMax (max 2 cfg.v_window) s.vols v).length
            cfg.v_window)) := by
  constructor
  · intro cfg s bars bbo funding r h1 h2
    exact on_second_decision_full cfg s bars bbo funding _ _ rfl r h1 h2
  · intro cfg s b bbo funding o h l c v pc hclosed hlast ho hh hl hc hv hpc hpos hnr
    have hcond : ¬ (b.is_closed = false ∨ b.close_time_ms ≤ s.last_closed_close_ms) := by
      push_neg
      refine ⟨by simp [hclosed], by omega⟩
    simp only [on_second]
    rw [if_neg hcond, ho, hh, hl, hc, hv, hpc]
    simp only []
    rw [if_neg (not_le.mpr hpos), if_pos hnr,
      if_neg (pushMax_ne_nil (max 2 cfg.v_window) (zero_lt_max_two _) s.vols v)]

/-- Strategy configuration with T = V = 3, used by the C2 witness. -/
def c2CfgW : StrategyConfig :=
  { k := 13 / 10, t_window := 3, n := 13 / 10, v_window := 3,
    max_spread := 1 / 5, max_funding_abs_bps := 3 / 2 }

/-- Signal-engine state after one processed closed bar. -/
noncomputable def c2StateW : StratState :=
  { rs_vars := [rs_var 100 101 99 100], vols := [5],
    last_closed_close_ms := 60000, prev_close := some 100 }

/-- A valid second closed bar. -/
def c2BarW : BarInput :=
  { is_closed := true, close_time_ms := 120000, open_ := some 100,
    high := some 102, low := some 99, close := some 101, base_vol := some 6 }

/-- C2 amended witness: a second closed bar with T = V = 3 leaves the
windows below capacity and yields the warming-up report with the partial
values. -/
theorem C2_enter_requires_full_windows_witness :
    (on_second c2CfgW c2StateW (some c2BarW) none none).1 =
      some (StratResult.warmingUp (bps_ret 101 100)
        (rs_vol_bps (pushMax (max 2 c2CfgW.t_window) c2StateW.rs_vars
          (rs_var 100 102 99 101)))
        (some ((pushMax (max 2 c2CfgW.v_window) c2StateW.vols 6).sum /
          ((pushMax (max 2 c2CfgW.v_window) c2StateW.vols 6).length : ℚ)))
        (pushMax (max 2 c2CfgW.t_window) c2StateW.rs_vars
          (rs_var 100 102 99 101)).length
        c2CfgW.t_window
        (pushMax (max 2 c2CfgW.v_window) c2StateW.vols 6).length
        c2CfgW.v_window) :=
  C2_enter_requires_full_windows.2 c2CfgW c2StateW c2BarW none none
    100 102 99 101 6 100 rfl (by norm_num [c2StateW, c2BarW]) rfl rfl rfl rfl rfl
    rfl (by norm_num) (by decide)

/-- C9 counterexample: for the strictly positive but OHLC-inconsistent
inputs o=4, h=2, l=1, c=1 (high below open) the per-bar Rogers-Satchell
variance is strictly negative, refuting nonnegativity under positivity
alone. -/
theorem C9_rs_var_negative_counterexample : rs_var 4 2 1 1 < 0 := by
  have h2 : (0 : ℝ) < Real.log 2 := Real.log_pos (by norm_num)
  rw [rs_var, if_neg (by norm_num)]
  have c1 : ((2 : ℚ) : ℝ) / ((4 : ℚ) : ℝ) = (2 : ℝ)⁻¹ := by norm_num
  have c2 : ((2 : ℚ) : ℝ) / ((1 : ℚ) : ℝ) = (2 : ℝ) := by norm_num
  have c3 : ((1 : ℚ) : ℝ) / ((1 : ℚ) : ℝ) = (1 : ℝ) := by norm_num
  rw [c1, c2, c3, Real.log_inv, Real.log_one, mul_zero, add_zero]
  have hp : 0 < Real.log 2 * Real.log 2 := mul_pos h2 h2
  linarith

/-- C9 amended: the per-bar Rogers-Satchell variance is nonnegative for
every bar with strictly positive OHLC that also satisfies the bar
consistency conditions low ≤ open, low ≤ close, open ≤ high and
close ≤ high; and it is 0 whenever any of open, high, low, close is ≤ 0. -/
theorem C9_rs_var_nonneg :
    (∀ o h l c : ℚ, 0 < l → l ≤ o → l ≤ c → o ≤ h → c ≤ h →
      0 ≤ rs_var o h l c) ∧
    (∀ o h l c : ℚ, o ≤ 0 ∨ h ≤ 0 ∨ l ≤ 0 ∨ c ≤ 0 → rs_var o h l c = 0) := by
  constructor
  · intro o h l c hl hlo hlc hoh hch
    have ho : 0 < o := lt_of_lt_of_le hl hlo
    have hc : 0 < c := lt_of_lt_of_le hl hlc
    have hh : 0 < h := lt_of_lt_of_le ho hoh
    rw [rs_var, if_neg (by push_neg; exact ⟨ho, hh, hl, hc⟩)]
    have hoR : (0 : ℝ) < (o : ℚ) := by exact_mod_cast ho
    have hcR : (0 : ℝ) < (c : ℚ) := by exact_mod_cast hc
    have hlR : (0 : ℝ) ≤ (l : ℚ) := by exact_mod_cast hl.le
    have t1 : 0 ≤ Real.log ((h : ℝ) / (o : ℝ)) :=
      Real.log_nonneg ((one_le_div hoR).mpr (by exact_mod_cast hoh))
    have t2 : 0 ≤ Real.log ((h : ℝ) / (c : ℝ)) :=
      Real.log_nonneg ((one_le_div hcR).mpr (by exact_mod_cast hch))
    have t3 : Real.log ((l : ℝ) / (o : ℝ)) ≤ 0 :=
      Real.log_nonpos (div_nonneg hlR hoR.le)
        ((div_le_one hoR).mpr (by exact_mod_cast hlo))
    have t4 : Real.log ((l : ℝ) / (c : ℝ)) ≤ 0 :=
      Real.log_nonpos (div_nonneg hlR hcR.le)
        ((div_le_one hcR).mpr (by exact_mod_cast hlc))
    have t5 : 0 ≤ Real.log ((l : ℝ) / (o : ℝ)) * Real.log ((l : ℝ) / (c : ℝ)) := by
      have := mul_nonneg (neg_nonneg.mpr t3) (neg_nonneg.mpr t4)
      simpa [neg_mul_neg] using this
    exact add_nonneg (mul_nonneg t1 t2) t5
  · intro o h l c hcase
    rw [rs_var, if_pos hcase]

/-- C9 amended witness: nonnegativity at the consistent positive bar
o=2, h=3, l=1, c=2, and the zero case at o=0. -/
theorem C9_rs_var_nonneg_witness :
    0 ≤ rs_var 2 3 1 2 ∧ rs_var 0 1 1 1 = 0 :=
  ⟨C9_rs_var_nonneg.1 2 3 1 2 (by norm_num) (by norm_num) (by norm_num)
      (by norm_num) (by norm_num),
    C9_rs_var_nonneg.2 0 1 1 1 (Or.inl (by norm_num))⟩

/-! ## OrderPlacer (src/core/order.py) -/

/-- Decimal ROUND_UP (away from zero) of a rational to an integer. -/
def decRoundUp (q : ℚ) : ℤ := if 0 ≤ q then ⌈q⌉ else ⌊q⌋

/-- Decimal ROUND_DOWN (toward zero) of a rational to an integer. -/
def decRoundDown (q : ℚ) : ℤ := if 0 ≤ q then ⌊q⌋ else ⌈q⌉

/-- Embeds OrderPlacer._round_to_step (order.py lines 174-182): round the
value to an integer multiple of step, away from zero for mode up and
toward zero otherwise; a nonpositive step returns the value unchanged. -/
def round_to_step (value step : ℚ) (up : Bool) : ℚ :=
  if step ≤ 0 then value
  else
    ((if up then decRoundUp (value / step) else decRoundDown (value / step) : ℤ) : ℚ)
      * step

/-- The per-symbol exchange filters cached by OrderPlacer
(order.py lines 125-165); a missing filter key is none. -/
structure SymbolFilters where
  tickSize : Option ℚ
  stepSize : Option ℚ
  minQty : Option ℚ
  maxQty : Option ℚ
  minNotional : Option ℚ
  deriving Repr, DecidableEq, Inhabited

/-- Embeds OrderPlacer._round_price (order.py lines 184-188). -/
def round_price (f : SymbolFilters) (price : ℚ) (up : Bool) : ℚ :=
  match f.tickSize with
  | none => price
  | some tick => if tick ≤ 0 then price else round_to_step price tick up

/-- Embeds OrderPlacer._round_qty (order.py lines 190-194). -/
def round_qty (f : SymbolFilters) (qty : ℚ) (up : Bool) : ℚ :=
  match f.stepSize with
  | none => qty
  | some step => if step ≤ 0 then qty else round_to_step qty step up

/-- The min-qty raise of compute_qty_for_notional (order.py lines 226-228). -/
def qty_after_min_qty (f : SymbolFilters) (qty : ℚ) : ℚ :=
  match f.minQty with
  | some mq => if qty < mq then round_qty f mq true else qty
  | none => qty

/-- The min-notional raise of compute_qty_for_notional (order.py
lines 230-232). -/
def qty_after_min_notional (f : SymbolFilters) (entry_price qty : ℚ) : ℚ :=
  match f.minNotional with
  | some mn =>
    if qty * entry_price < mn then round_qty f (mn / entry_price) true else qty
  | none => qty

/-- The quantity computed by compute_qty_for_notional before the final
max-qty check (order.py lines 222-232): notional over price rounded up to
step, then raised to the min-qty and min-notional filters in that order. -/
def adjusted_qty (f : SymbolFilters) (entry_price order_notional_usd : ℚ) : ℚ :=
  qty_after_min_notional f entry_price
    (qty_after_min_qty f (round_qty f (order_notional_usd / entry_price) true))

/-- Embeds OrderPlacer.compute_qty_for_notional (order.py lines 211-237);
error results model the raised ValueError. -/
def compute_qty_for_notional (f : SymbolFilters)
    (entry_price order_notional_usd : ℚ) : Except String ℚ :=
  if entry_price ≤ 0 then .error "entry_price must be > 0"
  else if order_notional_usd ≤ 0 then .error "order_notional_usd must be > 0"
  else
    let qty := adjusted_qty f entry_price order_notional_usd
    match f.maxQty with
    | some mx => if mx < qty then .error "exceeds maxQty" else .ok qty
    | none => .ok qty

lemma le_round_to_step_up {v s : ℚ} (hv : 0 ≤ v) : v ≤ round_to_step v s true := by
  rw [round_to_step]
  split
  · exact le_refl v
  · next hs =>
    push_neg at hs
    rw [if_pos rfl]
    have hdiv : 0 ≤ v / s := div_nonneg hv hs.le
    rw [decRoundUp, if_pos hdiv]
    calc v = v / s * s := (div_mul_cancel₀ v (ne_of_gt hs)).symm
      _ ≤ (⌈v / s⌉ : ℚ) * s := by
        exact mul_le_mul_of_nonneg_right (Int.le_ceil _) hs.le

lemma le_round_qty_up (f : SymbolFilters) {v : ℚ} (hv : 0 ≤ v) :
    v ≤ round_qty f v true := by
  rw [round_qty]
  cases hstep : f.stepSize with
  | none => exact le_refl v
  | some s =>
    show v ≤ if s ≤ 0 then v else round_to_step v s true
    split
    · exact le_refl v
    · exact le_round_to_step_up hv

lemma round_qty_up_multiple (f : SymbolFilters) {s : ℚ}
    (hs : f.stepSize = some s) (h0 : 0 < s) (v : ℚ) :
    ∃ k : ℤ, round_qty f v true = k * s := by
  rw [round_qty, hs]
  show ∃ k : ℤ, (if s ≤ 0 then v else round_to_step v s true) = (k : ℚ) * s
  rw [if_neg (not_le.mpr h0), round_to_step, if_neg (not_le.mpr h0), if_pos rfl]
  exact ⟨decRoundUp (v / s), rfl⟩

lemma le_qty_after_min_qty (f : SymbolFilters) {q : ℚ} (h0 : 0 < q) :
    q ≤ qty_after_min_qty f q := by
  rw [qty_after_min_qty]
  cases hmq : f.minQty with
  | none => exact le_refl q
  | some mq =>
    show q ≤ if q < mq then round_qty f mq true else q
    split
    · next hlt =>
      exact le_trans hlt.le (le_round_qty_up f (le_trans h0.le hlt.le))
    · exact le_refl q

lemma qty_after_min_qty_ge_min (f : SymbolFilters) {q : ℚ} (h0 : 0 < q)
    {mq : ℚ} (hmq : f.minQty = some mq) : mq ≤ qty_after_min_qty f q := by
  rw [qty_after_min_qty, hmq]
  show mq ≤ if q < mq then round_qty f mq true else q
  split
  · next hlt => exact le_round_qty_up f (le_trans h0.le hlt.le)
  · next hge => exact not_lt.mp hge

lemma qty_after_min_qty_multiple (f : SymbolFilters) {s : ℚ}
    (hs : f.stepSize = some s) (h0 : 0 < s) {q : ℚ}
    (hmul : ∃ k : ℤ, q = k * s) : ∃ k : ℤ, qty_after_min_qty f q = k * s := by
  rw [qty_after_min_qty]
  cases hmq : f.minQty with
  | none => exact hmul
  | some mq =>
    show ∃ k : ℤ, (if q < mq then round_qty f mq true else q) = (k : ℚ) * s
    split
    · exact round_qty_up_multiple f hs h0 mq
    · exact hmul

lemma le_qty_after_min_notional (f : SymbolFilters) (p : ℚ) {q : ℚ}
    (h0 : 0 < q) (hp : 0 < p) : q ≤ qty_after_min_notional f p q := by
  rw [qty_after_min_notional]
  cases hmn : f.minNotional with
  | none => exact le_refl q
  | some mn =>
    show q ≤ if q * p < mn then round_qty f (mn / p) true else q
    split
    · next hlt =>
      have hq : q < mn / p := (lt_div_iff hp).mpr hlt
      exact le_trans hq.le (le_round_qty_up f (le_trans h0.le hq.le))
    · exact le_refl q

lemma qty_after_min_notional_ge (f : SymbolFilters) (p : ℚ) {q : ℚ}
    (h0 : 0 < q) (hp : 0 < p) {mn : ℚ} (hmn : f.minNotional = some mn) :
    mn ≤ qty_after_min_notional f p q * p := by
  rw [qty_after_min_notional, hmn]
  show mn ≤ (if q * p < mn then round_qty f (mn / p) true else q) * p
  split
  · next hlt =>
    have hq : q < mn / p := (lt_div_iff hp).mpr hlt
    have hr : mn / p ≤ round_qty f (mn / p) true :=
      le_round_qty_up f (le_trans h0.le hq.le)
    calc mn = mn / p * p := (div_mul_cancel₀ mn (ne_of_gt hp)).symm
      _ ≤ round_qty f (mn / p) true * p := mul_le_mul_of_nonneg_right hr hp.le
  · next hge => exact not_lt.mp hge

lemma qty_after_min_notional_multiple (f : SymbolFilters) (p : ℚ) {s : ℚ}
    (hs : f.stepSize = some s) (h0 : 0 < s) {q : ℚ}
    (hmul : ∃ k : ℤ, q = k * s) :
    ∃ k : ℤ, qty_after_min_notional f p q = k * s := by
  rw [qty_after_min_notional]
  cases hmn : f.minNotional with
  | none => exact hmul
  | some mn =>
    show ∃ k : ℤ, (if q * p < mn then round_qty f (mn / p) true else q) = (k : ℚ) * s
    split
    · exact round_qty_up_multiple f hs h0 _
    · exact hmul

lemma adjusted_qty_spec (f : SymbolFilters) (p n : ℚ) (hp : 0 < p)
    (hn : 0 < n) :
    n / p ≤ adjusted_qty f p n ∧
    (∀ s, f.stepSize = some s → 0 < s → ∃ k : ℤ, adjusted_qty f p n = k * s) ∧
    (∀ mq, f.minQty = some mq → mq ≤ adjusted_qty f p n) ∧
    (∀ mn, f.minNotional = some mn → mn ≤ adjusted_qty f p n * p) := by
  have hraw : 0 < n / p := div_pos hn hp
  have h1 : n / p ≤ round_qty f (n / p) true := le_round_qty_up f hraw.le
  have h1pos : 0 < round_qty f (n / p) true := lt_of_lt_of_le hraw h1
  have h2 : round_qty f (n / p) true ≤ qty_after_min_qty f (round_qty f (n / p) true) :=
    le_qty_after_min_qty f h1pos
  have h2pos : 0 < qty_after_min_qty f (round_qty f (n / p) true) :=
    lt_of_lt_of_le h1pos h2
  have h3 : qty_after_min_qty f (round_qty f (n / p) true) ≤ adjusted_qty f p n :=
    le_qty_after_min_notional f p h2pos hp
  refine ⟨le_trans h1 (le_trans h2 h3), ?_, ?_, ?_⟩
  · intro s hs h0
    exact qty_after_min_notional_multiple f p hs h0
      (qty_after_min_qty_multiple f hs h0 (round_qty_up_multiple f hs h0 _))
  · intro mq hmq
    exact le_trans (qty_after_min_qty_ge_min f h1pos hmq) h3
  · intro mn hmn
    exact qty_after_min_notional_ge f p h2pos hp hmn

/-- C8: under positive entry price and order notional, the quantity
returned by compute_qty_for_notional is at least notional/price, is an
integer multiple of the step size when one is configured, satisfies the
min-qty and min-notional filters when present, and the computation raises
exactly when the adjusted quantity exceeds a configured maxQty. -/
theorem C8_compute_qty_filters (f : SymbolFilters) (p n : ℚ)
    (hp : 0 < p) (hn : 0 < n) :
    (∀ q, compute_qty_for_notional f p n = Except.ok q →
      n / p ≤ q ∧
      (∀ s, f.stepSize = some s → 0 < s → ∃ k : ℤ, q = k * s) ∧
      (∀ mq, f.minQty = some mq → mq ≤ q) ∧
      (∀ mn, f.minNotional = some mn → mn ≤ q * p)) ∧
    ((∃ e, compute_qty_for_notional f p n = Except.error e) ↔
      (∃ mx, f.maxQty = some mx ∧ mx < adjusted_qty f p n)) := by
  have hspec := adjusted_qty_spec f p n hp hn
  rw [compute_qty_for_notional, if_neg (not_le.mpr hp), if_neg (not_le.mpr hn)]
  constructor
  · intro q hq
    have hq2 : q = adjusted_qty f p n := by
      revert hq
      cases hmx : f.maxQty with
      | none =>
        intro hq
        cases hq
        rfl
      | some mx =>
        simp only []
        split
        · intro hq
          exact Except.noConfusion hq
        · intro hq
          cases hq
          rfl
    subst hq2
    exact hspec
  · constructor
    · rintro ⟨e, he⟩
      revert he
      cases hmx : f.maxQty with
      | none =>
        intro he
        exact Except.noConfusion he
      | some mx =>
        simp only []
        split
        · next hlt =>
          intro _
          exact ⟨mx, rfl, hlt⟩
        · intro he
          exact Except.noConfusion he
    · rintro ⟨mx, hmx, hlt⟩
      rw [hmx]
      show (∃ e, (if mx < adjusted_qty f p n then Except.error "exceeds maxQty"
        else Except.ok (adjusted_qty f p n)) = Except.error e)
      rw [if_pos hlt]
      exact ⟨_, rfl⟩

/-- Concrete exchange filters used by the C8 witness. -/
def c8F : SymbolFilters :=
  { tickSize := some (1 / 100), stepSize := some 1, minQty := some (1 / 2),
    maxQty := some 100, minNotional := some 50 }

/-- C8 witness: with step 1, minQty 0.5, minNotional 50 and maxQty 100, at
price 20 and notional 30 the computed quantity is 3 (raised from 2 by the
min-notional filter): at least notional/price, a multiple of the step, at
least minQty, and its notional meets the minimum. -/
theorem C8_compute_qty_filters_witness :
    (0 : ℚ) < 20 ∧ (0 : ℚ) < 30 ∧
    ((30 : ℚ) / 20 ≤ 3 ∧ (∃ k : ℤ, (3 : ℚ) = (k : ℚ) * 1) ∧
      ((1 : ℚ) / 2 ≤ 3) ∧ ((50 : ℚ) ≤ 3 * 20)) := by
  have hc1 : (⌈((3 : ℚ) / 2)⌉ : ℤ) = 2 := by
    rw [Int.ceil_eq_iff] <;> norm_num
  have hc2 : (⌈((5 : ℚ) / 2)⌉ : ℤ) = 3 := by
    rw [Int.ceil_eq_iff] <;> norm_num
  have hf := C8_compute_qty_filters c8F 20 30 (by norm_num) (by norm_num)
  have hok : compute_qty_for_notional c8F 20 30 = Except.ok 3 := by
    norm_num [c8F, compute_qty_for_notional, adjusted_qty,
      qty_after_min_notional, qty_after_min_qty, round_qty, round_to_step,
      decRoundUp, hc1, hc2]
  have h := hf.1 3 hok
  exact ⟨by norm_num, by norm_num,
    h.1, h.2.1 1 rfl (by norm_num), h.2.2.1 (1 / 2) rfl, h.2.2.2 50 rfl⟩

/-- Embeds the PositionState dataclass (order.py lines 56-75). -/
structure PositionState where
  symbol : String
  side : Side
  qty : ℚ
  entry_vwap_px : ℚ
  opened_time_ms : Int
  maker_order_id : Option Nat := none
  taker_order_id : Option Nat := none
  take_profit_order_id : Option Nat := none
  stop_loss_order_id : Option Nat := none
  trailing_stop_order_id : Option Nat := none
  deriving Repr, DecidableEq, Inhabited

/-- Embeds PositionState.is_long (order.py lines 69-71). -/
def PositionState.is_long (pos : PositionState) : Bool := pos.side = Side.BUY

/-- A new-order REST response, reduced to the order id that
_extract_order_id (order.py lines 838-849) reads from it; none models a
missing or malformed id. -/
structure NewOrderResp where
  orderId : Option Nat
  deriving Repr, DecidableEq, Inhabited

/-- A query_order REST payload, reduced to the fields _parse_query
(order.py lines 851-862) reads: status, executedQty, avgPrice, each after
best-effort float coercion. -/
structure QueryResp where
  status : String
  executedQty : Option ℚ
  avgPrice : Option ℚ
  deriving Repr, DecidableEq, Inhabited

/-- Oracle for the exchange interactions of one OrderPlacer.entry call:
the cached BBO touch read by _get_touch, the IOC submission outcome and
the post-submit order query outcome (error models a ClientError). -/
structure EntryEnv where
  bid_px : Option ℚ
  ask_px : Option ℚ
  submit : Except String NewOrderResp
  query : Except String QueryResp
  deriving Repr, Inhabited

/-- The outcome of OrderPlacer.entry relevant to the control loop: the
recorded position, whether an IOC new-order request was sent to the
exchange, and the submitted limit price and quantity. -/
structure EntryOutcome where
  pos : Option PositionState
  submitted : Bool
  taker_price : Option ℚ
  req_qty : Option ℚ
  deriving Repr, DecidableEq, Inhabited

/-- Embeds OrderPlacer.entry (order.py lines 243-343) through the creation
of the PositionState: no BBO, an exchange rejection, a missing order id, a
failed query, a zero fill or a missing/nonpositive average price all
return no position.  Exit-trigger arming (lines 345-365) only fills the
trigger order-id fields of the returned position and is modelled
separately by place_exit_triggers. -/
def entry (f : SymbolFilters) (env : EntryEnv) (symbol : String)
    (side : Side) (quantity : ℚ) (now_ms : Int) : EntryOutcome :=
  match env.bid_px, env.ask_px with
  | some bid_px, some ask_px =>
    let taker_price := if side = Side.BUY then round_price f ask_px true
      else round_price f bid_px false
    let quantity2 := round_qty f quantity false
    match env.submit with
    | .error _ =>
      { pos := none, submitted := true, taker_price := some taker_price,
        req_qty := some quantity2 }
    | .ok resp =>
      let parsed : ℚ × Option ℚ :=
        match resp.orderId with
        | none => (0, none)
        | some _ =>
          match env.query with
          | .error _ => (0, none)
          | .ok q => (q.executedQty.getD 0, q.avgPrice)
      if parsed.1 ≤ 0 ∨ parsed.2 = none ∨ parsed.2.getD 0 ≤ 0 then
        { pos := none, submitted := true, taker_price := some taker_price,
          req_qty := some quantity2 }
      else
        let newPos : PositionState :=
          { symbol := symbol, side := side, qty := parsed.1,
            entry_vwap_px := parsed.2.getD 0, opened_time_ms := now_ms,
            taker_order_id := resp.orderId }
        { pos := some newPos, submitted := true,
          taker_price := some taker_price, req_qty := some quantity2 }
  | _, _ => { pos := none, submitted := false, taker_price := none, req_qty := none }

/-- C4: OrderPlacer.entry returns a PositionState exactly when a BBO touch
was available, the IOC submission was accepted with an order id, and the
post-submit query reported a strictly positive executed quantity and a
strictly positive average price; in every other case no position is
recorded. -/
theorem C4_entry_records_iff (f : SymbolFilters) (env : EntryEnv)
    (symbol : String) (side : Side) (quantity : ℚ) (now_ms : Int) :
    (entry f env symbol side quantity now_ms).pos.isSome = true ↔
      ((∃ b, env.bid_px = some b) ∧ (∃ a, env.ask_px = some a) ∧
        (∃ resp, env.submit = Except.ok resp ∧ (∃ oid, resp.orderId = some oid) ∧
          (∃ q, env.query = Except.ok q ∧
            0 < q.executedQty.getD 0 ∧ (∃ px, q.avgPrice = some px ∧ 0 < px)))) := by
  rw [entry]
  cases hbid : env.bid_px with
  | none =>
    cases hask : env.ask_px with
    | none => simp
    | some a => simp
  | some b =>
    cases hask : env.ask_px with
    | none => simp
    | some a =>
      simp only []
      cases hsub : env.submit with
      | error e => simp [hsub]
      | ok resp =>
        simp only []
        cases hoid : resp.orderId with
        | none => simp [hoid, hsub]
        | some oid =>
          simp only []
          cases hq : env.query with
          | error e => simp [hq, hsub, hoid]
          | ok q =>
            simp only []
            cases havg : q.avgPrice with
            | none => simp [havg, hsub, hoid, hq]
            | some px =>
              by_cases hqty : q.executedQty.getD 0 ≤ 0
              · simp [havg, hsub, hoid, hq, hqty, not_lt.mpr hqty]
              · by_cases hpx : px ≤ 0
                · simp [havg, hsub, hoid, hq, hqty, hpx, not_lt.mpr hpx]
                · simp [havg, hsub, hoid, hq, hqty, hpx, not_le.mp hqty,
                    not_le.mp hpx]

/-! ## Margin safety and the margin kill-switch (order.py) -/

/-- An account REST payload reduced to the two fields read by
_get_margin_safety_multiple_total_usdt; the outer none models a failed
read (ClientError or a non-dict response). -/
structure AccountResp where
  totalMarginBalance : Option ℚ
  totalMaintMargin : Option ℚ
  deriving Repr, DecidableEq, Inhabited

/-- Embeds OrderPlacer._get_margin_safety_multiple_total_usdt (order.py
lines 919-948): totalMarginBalance / totalMaintMargin, none when the read
failed, a field is missing, the margin balance is nonpositive, or the
maintenance margin is nonpositive. -/
def get_margin_safety_multiple_total_usdt (acct : Option AccountResp) :
    Option ℚ :=
  match acct with
  | none => none
  | some d =>
    match d.totalMarginBalance, d.totalMaintMargin with
    | some mb, some mm =>
      if mb ≤ 0 then none
      else if mm ≤ 0 then none
      else some (mb / mm)
    | _, _ => none

/-- The close-order payload submitted by _close_position (order.py
lines 601-683) for a MARKET close: reduce-only, sized to the position,
on the opposite side. -/
structure CloseOrder where
  side : Side
  order_type : String
  reduceOnly : Bool
  qty : ℚ
  reason : String
  deriving Repr, DecidableEq, Inhabited

/-- Embeds the MARKET branch of OrderPlacer._close_position (order.py
lines 611-627): the reduce-only market close payload. -/
def close_position_market_order (pos : PositionState) (reason : String) :
    CloseOrder :=
  { side := if pos.is_long then Side.SELL else Side.BUY,
    order_type := "MARKET", reduceOnly := true, qty := pos.qty,
    reason := reason }

/-- Embeds OrderPlacer.maybe_exit (order.py lines 513-549): polls the
margin safety multiple and submits a forced reduce-only MARKET close with
reason MARGIN_KILL when it is defined, positive and at most the
configured minimum; otherwise submits nothing and returns none. -/
def maybe_exit (pos : PositionState) (account_poll : Bool)
    (acct : Option AccountResp) (margin_safety_multiple_min : ℚ) :
    Option CloseOrder :=
  if account_poll then
    match get_margin_safety_multiple_total_usdt acct with
    | some sm =>
      if 0 < sm then
        if sm ≤ margin_safety_multiple_min then
          some (close_position_market_order pos "MARGIN_KILL")
        else none
      else none
    | none => none
  else none

/-- C7: the margin-safety multiple is totalMarginBalance/totalMaintMargin,
undefined on a failed account read or a zero maintenance margin; whenever
it is defined and at most the configured minimum, maybe_exit submits the
forced reduce-only MARKET close with reason MARGIN_KILL, and otherwise
maybe_exit submits no order. -/
theorem C7_margin_safety_kill (acct : Option AccountResp)
    (pos : PositionState) (minMul : ℚ) :
    (acct = none → get_margin_safety_multiple_total_usdt acct = none) ∧
    (∀ d, acct = some d → d.totalMaintMargin = some 0 →
      get_margin_safety_multiple_total_usdt acct = none) ∧
    (∀ v, get_margin_safety_multiple_total_usdt acct = some v →
      ∃ d mb mm, acct = some d ∧ d.totalMarginBalance = some mb ∧
        d.totalMaintMargin = some mm ∧ v = mb / mm ∧ 0 < v) ∧
    (∀ v, get_margin_safety_multiple_total_usdt acct = some v → v ≤ minMul →
      maybe_exit pos true acct minMul =
        some (close_position_market_order pos "MARGIN_KILL") ∧
        (close_position_market_order pos "MARGIN_KILL").order_type = "MARKET" ∧
        (close_position_market_order pos "MARGIN_KILL").reduceOnly = true) ∧
    ((∀ v, get_margin_safety_multiple_total_usdt acct = some v → minMul < v) →
      maybe_exit pos true acct minMul = none) := by
  refine ⟨?_, ?_, ?_, ?_, ?_⟩
  · intro h
    rw [h, get_margin_safety_multiple_total_usdt]
  · intro d hd hmm
    rw [hd, get_margin_safety_multiple_total_usdt]
    cases hmb : d.totalMarginBalance with
    | none => simp [hmm]
    | some mb =>
      rw [hmm]
      simp only []
      split
      · rfl
      · rw [if_pos (le_refl (0 : ℚ))]
  · intro v hv
    revert hv
    cases acct with
    | none =>
      intro hv
      rw [get_margin_safety_multiple_total_usdt] at hv
      exact Option.noConfusion hv
    | some d =>
      intro hv
      rw [get_margin_safety_multiple_total_usdt] at hv
      revert hv
      cases hmb : d.totalMarginBalance with
      | none =>
        intro hv
        exact Option.noConfusion hv
      | some mb =>
        cases hmm : d.totalMaintMargin with
        | none =>
          intro hv
          exact Option.noConfusion hv
        | some mm =>
          simp only []
          split
          · intro hv
            exact Option.noConfusion hv
          · split
            · intro hv
              exact Option.noConfusion hv
            · next hmb0 hmm0 =>
              intro hv
              cases hv
              push_neg at hmb0 hmm0
              exact ⟨d, mb, mm, rfl, hmb, hmm, rfl, div_pos hmb0 hmm0⟩
  · intro v hv hle
    rw [maybe_exit, if_pos rfl, hv]
    have hpos : 0 < v := by
      cases acct with
      | none =>
        rw [get_margin_safety_multiple_total_usdt] at hv
        exact Option.noConfusion hv
      | some d =>
        rw [get_margin_safety_multiple_total_usdt] at hv
        revert hv
        cases hmb : d.totalMarginBalance with
        | none =>
          intro hv
          exact Option.noConfusion hv
        | some mb =>
          cases hmm : d.totalMaintMargin with
          | none =>
            intro hv
            exact Option.noConfusion hv
          | some mm =>
            simp only []
            split
            · intro hv
              exact Option.noConfusion hv
            · split
              · intro hv
                exact Option.noConfusion hv
              · next hmb0 hmm0 =>
                intro hv
                cases hv
                push_neg at hmb0 hmm0
                exact div_pos hmb0 hmm0
    show (if 0 < v then if v ≤ minMul then _ else none else none) = _ ∧ _ ∧ _
    rw [if_pos hpos, if_pos hle]
    exact ⟨rfl, rfl, rfl⟩
  · intro hgt
    rw [maybe_exit, if_pos rfl]
    cases hv : get_margin_safety_multiple_total_usdt acct with
    | none => rfl
    | some v =>
      simp only []
      split
      · rw [if_neg (not_le.mpr (hgt v hv))]
      · rfl

/-- A concrete open long position used in witnesses. -/
def c7Pos : PositionState :=
  { symbol := "BTCUSDT", side := Side.BUY, qty := 1, entry_vwap_px := 100,
    opened_time_ms := 0 }

/-- C7 witness: totalMarginBalance 120 with totalMaintMargin 110 gives
safety 12/11 (about 1.09), which is at most the default minimum 1.2, so
maybe_exit submits the reduce-only MARKET close with reason MARGIN_KILL. -/
theorem C7_margin_safety_kill_witness :
    get_margin_safety_multiple_total_usdt
        (some { totalMarginBalance := some 120, totalMaintMargin := some 110 }) =
      some (12 / 11) ∧
    (12 : ℚ) / 11 ≤ 6 / 5 ∧
    maybe_exit c7Pos true
        (some { totalMarginBalance := some 120, totalMaintMargin := some 110 })
        (6 / 5) =
      some (close_position_market_order c7Pos "MARGIN_KILL") := by
  have hv : get_margin_safety_multiple_total_usdt
      (some { totalMarginBalance := some 120, totalMaintMargin := some 110 }) =
      some (12 / 11) := by
    norm_num [get_margin_safety_multiple_total_usdt]
  have hle : (12 : ℚ) / 11 ≤ 6 / 5 := by norm_num
  have h := (C7_margin_safety_kill
    (some { totalMarginBalance := some 120, totalMaintMargin := some 110 })
    c7Pos (6 / 5)).2.2.2.1 (12 / 11) hv hle
  exact ⟨hv, hle, h.1⟩

/-! ## Exit trigger placement (order.py lines 387-507) -/

/-- A trigger-order payload as passed to _new_order, after its own
stop-price, activation-price and quantity rounding (order.py
lines 689-712). -/
structure TriggerOrder where
  side : Side
  order_type : String
  qty : ℚ
  stop_price : Option ℚ
  activation_price : Option ℚ
  callback_rate : Option ℚ
  reduceOnly : Bool
  deriving Repr, DecidableEq, Inhabited

/-- Embeds OrderPlacer._calc_exit_trigger_prices (order.py
lines 387-402). -/
def calc_exit_trigger_prices (pos : PositionState)
    (take_profit_bps stop_loss_bps : ℚ) : ℚ × ℚ :=
  let entry := pos.entry_vwap_px
  let tp_frac := take_profit_bps / 10000
  let sl_frac := stop_loss_bps / 10000
  if pos.is_long then (entry * (1 + tp_frac), entry * (1 - sl_frac))
  else (entry * (1 - tp_frac), entry * (1 + sl_frac))

/-- The dict returned by place_exit_triggers together with the three
trigger-order payloads it submits. -/
structure TriggersOut where
  take_profit_order : TriggerOrder
  stop_loss_order : TriggerOrder
  trailing_stop_order : TriggerOrder
  take_profit_stop_price : ℚ
  stop_loss_stop_price : ℚ
  trailing_activation_price : ℚ
  trailing_callback_rate : ℚ
  deriving Repr, DecidableEq, Inhabited

/-- Embeds OrderPlacer.place_exit_triggers (order.py lines 404-507): the
three reduce-only exit triggers.  The trailing activation price defaults
to the entry price moved by the activation bps (or half the take-profit
bps), rounded down to the tick; the callback rate defaults to the relative
distance from the rounded activation price to the entry price, and any
nonpositive rate is replaced by 0.0001 before submission.  The error case
models the ValueError raised on nonpositive take-profit or stop-loss
bps. -/
def place_exit_triggers (f : SymbolFilters) (pos : PositionState)
    (take_profit_bps stop_loss_bps : ℚ)
    (trailing_activation_bps trailing_activation_price
      trailing_callback_rate : Option ℚ) : Except String TriggersOut :=
  if take_profit_bps ≤ 0 ∨ stop_loss_bps ≤ 0 then
    .error "take_profit_bps and stop_loss_bps must be > 0"
  else
    let prices := calc_exit_trigger_prices pos take_profit_bps stop_loss_bps
    let tp_stop_price := round_price f prices.1 false
    let sl_stop_price := round_price f prices.2 false
    let close_side := if pos.is_long then Side.SELL else Side.BUY
    let entry_px := pos.entry_vwap_px
    let act0 : ℚ :=
      match trailing_activation_price with
      | some p => p
      | none =>
        let act_bps :=
          match trailing_activation_bps with
          | none => take_profit_bps * (1 / 2)
          | some ab => if ab ≤ 0 then take_profit_bps * (1 / 2) else ab
        let act_frac := act_bps / 10000
        if pos.is_long then entry_px * (1 + act_frac)
        else entry_px * (1 - act_frac)
    let act := round_price f act0 false
    let cb0 : ℚ :=
      match trailing_callback_rate with
      | some r => r
      | none => |(act - entry_px) / entry_px|
    let cb := if cb0 ≤ 0 then 1 / 10000 else cb0
    .ok
      { take_profit_order :=
          { side := close_side, order_type := "TAKE_PROFIT_MARKET",
            qty := round_qty f pos.qty false,
            stop_price := some (round_price f tp_stop_price false),
            activation_price := none, callback_rate := none,
            reduceOnly := true }
        stop_loss_order :=
          { side := close_side, order_type := "STOP_MARKET",
            qty := round_qty f pos.qty false,
            stop_price := some (round_price f sl_stop_price false),
            activation_price := none, callback_rate := none,
            reduceOnly := true }
        trailing_stop_order :=
          { side := close_side, order_type := "TRAILING_STOP_MARKET",
            qty := round_qty f pos.qty false, stop_price := none,
            activation_price := some (round_price f act false),
            callback_rate := some cb, reduceOnly := true }
        take_profit_stop_price := tp_stop_price
        stop_loss_stop_price := sl_stop_price
        trailing_activation_price := act
        trailing_callback_rate := cb }

lemma pos_of_rate_floor (x : ℚ) : 0 < if x ≤ 0 then 1 / 10000 else x := by
  split
  · norm_num
  · next h => exact not_le.mp h

/-- C10: whenever place_exit_triggers submits the trailing-stop order, the
callbackRate it sends is strictly positive; with no configured rate it is
derived as the absolute relative distance from the rounded activation
price to the entry price, and a nonpositive derived value is replaced by
0.0001. -/
theorem C10_trailing_callback_positive (f : SymbolFilters)
    (pos : PositionState) (tp sl : ℚ) (actb actp cbr : Option ℚ)
    (out : TriggersOut)
    (hok : place_exit_triggers f pos tp sl actb actp cbr = Except.ok out) :
    0 < out.trailing_callback_rate ∧
    (∀ r, out.trailing_stop_order.callback_rate = some r → 0 < r) ∧
    out.trailing_stop_order.callback_rate = some out.trailing_callback_rate ∧
    (cbr = none →
      out.trailing_callback_rate =
        (if |(out.trailing_activation_price - pos.entry_vwap_px) /
              pos.entry_vwap_px| ≤ 0
          then 1 / 10000
          else |(out.trailing_activation_price - pos.entry_vwap_px) /
              pos.entry_vwap_px|)) := by
  unfold place_exit_triggers at hok
  split at hok
  · exact Except.noConfusion hok
  · simp only [] at hok
    cases hok
    refine ⟨pos_of_rate_floor _, ?_, rfl, ?_⟩
    · intro r hr
      rw [Option.some.injEq] at hr
      rw [← hr]
      exact pos_of_rate_floor _
    · intro hcbr
      subst hcbr
      rfl

/-- Exchange filters with tick size 1 used by the C10 witness. -/
def c10F : SymbolFilters :=
  { tickSize := some 1, stepSize := some (1 / 1000), minQty := none,
    maxQty := none, minNotional := none }

/-- The triggers produced for a long at entry 100 with activation 8 bps and
tick 1: the activation price 100.08 rounds down to the entry price. -/
def c10Out : TriggersOut :=
  (place_exit_triggers c10F c7Pos 20 12 (some 8) none none).toOption.getD default

/-- C10 witness: with tick size 1 the rounded activation price equals the
entry price, the derived callback rate is zero, and the submitted rate is
the floor value 0.0001, strictly positive. -/
theorem C10_trailing_callback_positive_witness :
    0 < c10Out.trailing_callback_rate ∧
      c10Out.trailing_callback_rate = 1 / 10000 := by
  have hok : place_exit_triggers c10F c7Pos 20 12 (some 8) none none =
      Except.ok c10Out := by
    unfold c10Out
    unfold place_exit_triggers
    rw [if_neg (by norm_num)]
    rfl
  refine ⟨(C10_trailing_callback_positive c10F c7Pos 20 12 (some 8) none none
    c10Out hok).1, ?_⟩
  have hfloor : (⌊(2502 : ℚ) / 25⌋ : ℤ) = 100 := by
    rw [Int.floor_eq_iff] <;> norm_num
  norm_num [c10Out, place_exit_triggers, calc_exit_trigger_prices,
    round_price, round_to_step, decRoundDown, c10F, c7Pos,
    PositionState.is_long, hfloor]
  rfl

/-! ## Control loop (src/core/main.py) -/

/-- Embeds the per-entry risk computation of the control loop (main.py
lines 774-781): the break-even floor, the effective trailing activation
bps and the effective take-profit bps.  The opening loss comes from the
blocker detail (none or a raw value, clipped at zero) and the funding rate
from the funding snapshot. -/
def entry_risk_bps (taker_fee_bps trailing_activation_bps
    trailing_activation_buffer_bps take_profit_bps min_take_profit_gap_bps : ℚ)
    (opening_loss_raw funding_rate : Option ℚ) : ℚ × ℚ × ℚ :=
  let opening_loss_bps := max 0 (opening_loss_raw.getD 0)
  let funding_bps := |funding_rate.getD 0 * 10000|
  let be_floor_bps := 2 * taker_fee_bps + opening_loss_bps + funding_bps / 8
  let activation_auto_bps := be_floor_bps + max 0 trailing_activation_buffer_bps
  let activation_bps := max trailing_activation_bps activation_auto_bps
  let tp_bps := max take_profit_bps
    (activation_bps + max 0 min_take_profit_gap_bps)
  (be_floor_bps, activation_bps, tp_bps)

/-- C5: the effective take-profit distance is always at least the
effective trailing-activation distance plus the configured minimum gap,
and for nonnegative opening-loss and buffer inputs the activation distance
is exactly the maximum of the configured value and
2*taker_fee + opening_loss + abs(funding)/8 + buffer. -/
theorem C5_tp_gap_floor (fee act_cfg buffer tp_cfg gap L F : ℚ)
    (hL : 0 ≤ L) (hbuf : 0 ≤ buffer) (hgap : 0 ≤ gap) :
    (entry_risk_bps fee act_cfg buffer tp_cfg gap (some L) (some F)).2.1 + gap ≤
      (entry_risk_bps fee act_cfg buffer tp_cfg gap (some L) (some F)).2.2 ∧
    (entry_risk_bps fee act_cfg buffer tp_cfg gap (some L) (some F)).2.1 =
      max act_cfg (2 * fee + L + |F * 10000| / 8 + buffer) := by
  rw [entry_risk_bps]
  simp only [Option.getD_some]
  constructor
  · calc max act_cfg (2 * fee + max 0 L + |F * 10000| / 8 + max 0 buffer) + gap
        ≤ max act_cfg (2 * fee + max 0 L + |F * 10000| / 8 + max 0 buffer)
            + max 0 gap := by
          exact add_le_add_left (le_max_right 0 gap) _
      _ ≤ max tp_cfg
            (max act_cfg (2 * fee + max 0 L + |F * 10000| / 8 + max 0 buffer)
              + max 0 gap) := le_max_right _ _
  · rw [max_eq_right hL, max_eq_right hbuf]

/-- C5 witness: the spec example tp_cfg=20, configured activation 18,
gap=4 with zero fee, opening loss, funding and buffer: the effective
activation is 18 and the effective take-profit is max(20, 22) = 22. -/
theorem C5_tp_gap_floor_witness :
    ((entry_risk_bps 0 18 0 20 4 (some 0) (some 0)).2.1 + 4 ≤
      (entry_risk_bps 0 18 0 20 4 (some 0) (some 0)).2.2) ∧
    (entry_risk_bps 0 18 0 20 4 (some 0) (some 0)).2.1 = 18 ∧
    (entry_risk_bps 0 18 0 20 4 (some 0) (some 0)).2.2 = 22 := by
  have h := C5_tp_gap_floor 0 18 0 20 4 0 0 (le_refl 0) (le_refl 0)
    (by norm_num)
  refine ⟨h.1, ?_, ?_⟩
  · rw [h.2]
    norm_num
  · norm_num [entry_risk_bps]

/-- Embeds the daily-drawdown tracker state of the control loop (main.py
lines 460-467): UTC-day key, day-start/peak/last balances, drawdown
fraction, sticky blocked flag, missing-balance warning flag and the
effective order notional. -/
structure DailyRiskState where
  day : Option Int
  start_balance : Option ℚ
  peak_balance : Option ℚ
  last_balance : Option ℚ
  drawdown_frac : ℚ
  blocked : Bool
  missing_warned : Bool
  effective_order_notional : Option ℚ
  deriving Repr, DecidableEq, Inhabited

/-- The rollover reset of the daily-drawdown tracker (main.py
lines 476-485). -/
def dd_rollover (order_notional_cfg : Option ℚ) (s : DailyRiskState)
    (utc_day : Int) : DailyRiskState :=
  if s.day = some utc_day then s else
    { day := some utc_day, start_balance := none, peak_balance := none,
      last_balance := none, drawdown_frac := 0, blocked := false,
      missing_warned := false, effective_order_notional := order_notional_cfg }

/-- The day-start balance and default-notional update (main.py
lines 491-499). -/
def dd_start_update (order_notional_cfg : Option ℚ)
    (risk_pct target_leverage : ℚ) (s : DailyRiskState) (b : ℚ) :
    DailyRiskState :=
  if s.start_balance = none then
    { s with
      start_balance := some b
      effective_order_notional :=
        if order_notional_cfg = none
        then some (b * (risk_pct / 100) * target_leverage)
        else s.effective_order_notional }
  else s

/-- The running-peak update (main.py lines 500-501). -/
def dd_peak_update (s : DailyRiskState) (b : ℚ) : DailyRiskState :=
  if s.peak_balance = none ∨ s.peak_balance.getD 0 < b
  then { s with peak_balance := some b } else s

/-- The drawdown computation and sticky block trigger (main.py
lines 502-518). -/
def dd_blocked_update (daily_drawdown_blocker_pct : ℚ)
    (s : DailyRiskState) (b : ℚ) : DailyRiskState :=
  match s.peak_balance with
  | some p =>
    if 0 < p then
      let dd := max 0 ((p - b) / p)
      { s with
        drawdown_frac := dd
        blocked :=
          if s.blocked = false ∧ daily_drawdown_blocker_pct / 100 ≤ dd
          then true else s.blocked }
    else s
  | none => s

/-- Embeds one tick of the daily-drawdown tracker (main.py lines 475-521):
reset on a UTC-day rollover, then on a positive balance read update the
last/start/peak balances, the default order notional, the drawdown
fraction against the running peak, and set the sticky blocked flag the
first time the drawdown reaches the threshold. -/
def daily_risk_step (order_notional_cfg : Option ℚ)
    (risk_pct target_leverage daily_drawdown_blocker_pct : ℚ)
    (s : DailyRiskState) (utc_day : Int) (balance_now : Option ℚ) :
    DailyRiskState :=
  let s0 := dd_rollover order_notional_cfg s utc_day
  match balance_now with
  | some b =>
    if 0 < b then
      dd_blocked_update daily_drawdown_blocker_pct
        (dd_peak_update
          (dd_start_update order_notional_cfg risk_pct target_leverage
            { s0 with last_balance := some b, missing_warned := false } b) b) b
    else { s0 with missing_warned := true }
  | none => { s0 with missing_warned := true }

lemma dd_start_update_fields (cfgN : Option ℚ) (risk lev : ℚ)
    (s : DailyRiskState) (b : ℚ) :
    (dd_start_update cfgN risk lev s b).peak_balance = s.peak_balance ∧
    (dd_start_update cfgN risk lev s b).blocked = s.blocked ∧
    (dd_start_update cfgN risk lev s b).day = s.day := by
  rw [dd_start_update]
  split
  · exact ⟨rfl, rfl, rfl⟩
  · exact ⟨rfl, rfl, rfl⟩

lemma dd_peak_update_spec (s : DailyRiskState) (b p : ℚ)
    (hpeak : s.peak_balance = some p) :
    (dd_peak_update s b).peak_balance = some (max p b) := by
  rw [dd_peak_update, hpeak]
  by_cases hlt : p < b
  · rw [if_pos (Or.inr (by simpa using hlt)), max_eq_right hlt.le]
  · rw [if_neg, hpeak, max_eq_left (not_lt.mp hlt)]
    push_neg
    exact ⟨by simp, by simpa using not_lt.mp hlt⟩

lemma dd_peak_update_none (s : DailyRiskState) (b : ℚ)
    (hpeak : s.peak_balance = none) :
    (dd_peak_update s b).peak_balance = some b := by
  rw [dd_peak_update, if_pos (Or.inl hpeak)]

lemma dd_peak_update_fields (s : DailyRiskState) (b : ℚ) :
    (dd_peak_update s b).blocked = s.blocked ∧
    (dd_peak_update s b).day = s.day := by
  rw [dd_peak_update]
  split
  · exact ⟨rfl, rfl⟩
  · exact ⟨rfl, rfl⟩

lemma dd_blocked_update_spec (th : ℚ) (s : DailyRiskState) (b p : ℚ)
    (hpeak : s.peak_balance = some p) (hp : 0 < p) :
    (dd_blocked_update th s b).drawdown_frac = max 0 ((p - b) / p) ∧
    ((dd_blocked_update th s b).blocked = true ↔
      (s.blocked = true ∨ th / 100 ≤ max 0 ((p - b) / p))) := by
  rw [dd_blocked_update, hpeak]
  simp only []
  rw [if_pos hp]
  refine ⟨rfl, ?_⟩
  show (if s.blocked = false ∧ th / 100 ≤ max 0 ((p - b) / p) then true
    else s.blocked) = true ↔ _
  cases hblk : s.blocked with
  | false =>
    split
    · next hc => simp [hc.2]
    · next hc =>
      simp only [true_and] at hc
      simp [hc]
  | true =>
    split
    · next hc => exact absurd hc.1 (by simp)
    · simp

lemma dd_blocked_update_sticky (th : ℚ) (s : DailyRiskState) (b : ℚ)
    (hblk : s.blocked = true) : (dd_blocked_update th s b).blocked = true := by
  rw [dd_blocked_update]
  cases hpeak : s.peak_balance with
  | none => exact hblk
  | some p =>
    simp only []
    split
    · show (if s.blocked = false ∧ _ then true else s.blocked) = true
      split
      · rfl
      · exact hblk
    · exact hblk

lemma dd_blocked_update_day (th : ℚ) (s : DailyRiskState) (b : ℚ) :
    (dd_blocked_update th s b).day = s.day := by
  rw [dd_blocked_update]
  cases hpeak : s.peak_balance with
  | none => rfl
  | some p =>
    simp only []
    split
    · rfl
    · rfl

/-- C6: the daily drawdown monitor keeps
drawdown = max(0, (peak - balance)/peak) against the running peak of the
current UTC day; the blocked flag becomes true when the drawdown reaches
the threshold, is sticky for the rest of the UTC day regardless of
balance recovery, and is reset (with the peak and day-start balance) only
at a UTC-day rollover. -/
theorem C6_daily_drawdown_sticky (cfgN : Option ℚ) (risk lev th : ℚ)
    (s : DailyRiskState) (d : Int) (bal : Option ℚ) :
    (s.day = some d → s.blocked = true →
      (daily_risk_step cfgN risk lev th s d bal).blocked = true) ∧
    (s.day ≠ some d → 0 < th →
      (daily_risk_step cfgN risk lev th s d bal).day = some d ∧
      (daily_risk_step cfgN risk lev th s d bal).blocked = false) ∧
    (∀ b p, s.day = some d → bal = some b → 0 < b →
      s.peak_balance = some p → 0 < p →
      (daily_risk_step cfgN risk lev th s d bal).drawdown_frac =
        max 0 ((max p b - b) / max p b) ∧
      ((daily_risk_step cfgN risk lev th s d bal).blocked = true ↔
        (s.blocked = true ∨ th / 100 ≤ max 0 ((max p b - b) / max p b)))) := by
  refine ⟨?_, ?_, ?_⟩
  · intro hday hblk
    unfold daily_risk_step
    rw [dd_rollover, if_pos hday]
    cases bal with
    | none => exact hblk
    | some b =>
      simp only []
      split
      · apply dd_blocked_update_sticky
        rw [(dd_peak_update_fields _ _).1, (dd_start_update_fields _ _ _ _ _).2.1]
        exact hblk
      · exact hblk
  · intro hday hth
    unfold daily_risk_step
    rw [dd_rollover, if_neg hday]
    cases bal with
    | none => exact ⟨rfl, rfl⟩
    | some b =>
      simp only []
      split
      · next hb =>
        constructor
        · rw [dd_blocked_update_day, (dd_peak_update_fields _ _).2,
            (dd_start_update_fields _ _ _ _ _).2.2]
        · have hXpeak : (dd_peak_update (dd_start_update cfgN risk lev
              { day := some d, start_balance := none, peak_balance := none,
                last_balance := some b, drawdown_frac := 0, blocked := false,
                missing_warned := false,
                effective_order_notional := cfgN } b) b).peak_balance =
              some b := by
            apply dd_peak_update_none
            rw [(dd_start_update_fields _ _ _ _ _).1]
          have hspec := dd_blocked_update_spec th _ b b hXpeak hb
          have hblk0 : (dd_peak_update (dd_start_update cfgN risk lev
              { day := some d, start_balance := none, peak_balance := none,
                last_balance := some b, drawdown_frac := 0, blocked := false,
                missing_warned := false,
                effective_order_notional := cfgN } b) b).blocked = false := by
            rw [(dd_peak_update_fields _ _).1, (dd_start_update_fields _ _ _ _ _).2.1]
          cases hB : (dd_blocked_update th (dd_peak_update (dd_start_update
              cfgN risk lev
              { day := some d, start_balance := none, peak_balance := none,
                last_balance := some b, drawdown_frac := 0, blocked := false,
                missing_warned := false,
                effective_order_notional := cfgN } b) b) b).blocked with
          | false => rfl
          | true =>
            rcases hspec.2.mp hB with hc | hc
            · rw [hblk0] at hc
              exact Bool.noConfusion hc
            · rw [sub_self, zero_div, max_self] at hc
              exact absurd hc (not_le.mpr (div_pos hth (by norm_num)))
      · exact ⟨rfl, rfl⟩
  · intro b p hday hbal hb hpeak hp
    subst hbal
    unfold daily_risk_step
    rw [dd_rollover, if_pos hday]
    simp only []
    rw [if_pos hb]
    have hXpeak : (dd_peak_update (dd_start_update cfgN risk lev
        { s with last_balance := some b, missing_warned := false } b)
        b).peak_balance = some (max p b) := by
      apply dd_peak_update_spec
      rw [(dd_start_update_fields _ _ _ _ _).1]
      exact hpeak
    have hmaxp : 0 < max p b := lt_of_lt_of_le hp (le_max_left p b)
    have hspec := dd_blocked_update_spec th _ b (max p b) hXpeak hmaxp
    refine ⟨hspec.1, ?_⟩
    rw [hspec.2, (dd_peak_update_fields _ _).1,
      (dd_start_update_fields _ _ _ _ _).2.1]

/-- Risk state mid-day with peak balance 1000 and no block. -/
def c6S0 : DailyRiskState :=
  { day := some 0, start_balance := some 1000, peak_balance := some 1000,
    last_balance := some 1000, drawdown_frac := 0, blocked := false,
    missing_warned := false, effective_order_notional := some 100 }

/-- C6 witness: peak 1000, threshold 5 percent, balance 950 gives drawdown
1/20 (5 percent) and blocked=true; a same-day recovery to 980 leaves
blocked=true. -/
theorem C6_daily_drawdown_sticky_witness :
    (daily_risk_step (some 100) 1 25 5 c6S0 0 (some 950)).drawdown_frac
        = 1 / 20 ∧
    (daily_risk_step (some 100) 1 25 5 c6S0 0 (some 950)).blocked = true ∧
    (daily_risk_step (some 100) 1 25 5
      (daily_risk_step (some 100) 1 25 5 c6S0 0 (some 950)) 0
      (some 980)).blocked = true := by
  have h := C6_daily_drawdown_sticky (some 100) 1 25 5 c6S0 0 (some 950)
  have h3 := h.2.2 950 1000 rfl rfl (by norm_num) rfl (by norm_num)
  have hmax1 : max (1000 : ℚ) 950 = 1000 := max_eq_left (by norm_num)
  have hval : max (0 : ℚ) ((max (1000 : ℚ) 950 - 950) / max (1000 : ℚ) 950)
      = 1 / 20 := by
    rw [hmax1, show ((1000 : ℚ) - 950) / 1000 = 1 / 20 by norm_num,
      max_eq_right (by norm_num : (0 : ℚ) ≤ 1 / 20)]
  have hdd : (daily_risk_step (some 100) 1 25 5 c6S0 0
      (some 950)).drawdown_frac = 1 / 20 := by
    rw [h3.1, hval]
  have hblk : (daily_risk_step (some 100) 1 25 5 c6S0 0
      (some 950)).blocked = true := by
    apply h3.2.mpr
    right
    rw [hval]
    norm_num
  refine ⟨hdd, hblk, ?_⟩
  have h2 := C6_daily_drawdown_sticky (some 100) 1 25 5
    (daily_risk_step (some 100) 1 25 5 c6S0 0 (some 950)) 0 (some 980)
  apply h2.1 _ hblk
  unfold daily_risk_step
  rw [dd_rollover, if_pos (show c6S0.day = some 0 from rfl)]
  simp only []
  rw [if_pos (by norm_num : (0 : ℚ) < 950), dd_blocked_update_day,
    (dd_peak_update_fields _ _).2, (dd_start_update_fields _ _ _ _ _).2.2]
  rfl

/-! ## Per-symbol control-loop tick (main.py lines 537-844) -/

/-- Embeds OrderPlacer.get_entry_limit_price (order.py lines 196-209):
the far touch rounded to tick, up for BUY and down for SELL. -/
def get_entry_limit_price (f : SymbolFilters) (side : Side)
    (env : EntryEnv) : Option ℚ :=
  match env.bid_px, env.ask_px with
  | some bid_px, some ask_px =>
    some (if side = Side.BUY then round_price f ask_px true
      else round_price f bid_px false)
  | _, _ => none

/-- Per-symbol mutable state of the control loop (main.py lines 456-459):
the recorded position, the re-entry cooldown deadline and the last
force-exit attempt time. -/
structure SymbolState where
  position : Option PositionState
  cooldown_until_ms : Int
  last_force_exit_attempt_ms : Int
  deriving Repr, DecidableEq, Inhabited

/-- The fields of the strategy decision dict read by the control loop. -/
structure DecisionIn where
  enter : Bool
  side : Option Side
  opening_loss_bps : Option ℚ
  deriving Repr, DecidableEq, Inhabited

/-- An order submission performed during one symbol tick. -/
inductive TickAction where
  | closeSubmit (reason : String)
  | entrySubmit
  deriving Repr, DecidableEq

/-- Oracle for the exchange reads and order outcomes of one symbol tick:
the two residual-position queries, the account poll, whether a submitted
close filled, and the entry-call environment. -/
structure TickOracle where
  live_qty_open : Option ℚ
  acct : Option AccountResp
  live_amt_flat : Option ℚ
  live_qty_entry : Option ℚ
  close_ok : Bool
  entry_env : EntryEnv
  deriving Repr, Inhabited

/-- The CLI arguments read by the per-symbol tick. -/
structure TickArgs where
  filters : SymbolFilters
  entry_halt_min : Int
  force_exit_min : Int
  reentry_cooldown_min : Int
  margin_safety_multiple : ℚ
  taker_fee_bps : ℚ
  take_profit_bps : ℚ
  stop_loss_bps : ℚ
  trailing_activation_bps : ℚ
  trailing_activation_buffer_bps : ℚ
  trailing_callback_bps : ℚ
  min_take_profit_gap_bps : ℚ
  deriving Repr, DecidableEq, Inhabited

/-- The throttled force-close used by the drawdown-block, daily-cutoff and
flat-residual branches (main.py lines 569-601, 604-633, 694-715,
729-747): at most one close attempt per 10 seconds; on a filled close the
position is cleared and the re-entry cooldown starts. -/
def throttled_force_close (a : TickArgs) (ts_ms : Int) (oracle : TickOracle)
    (s : SymbolState) (reason : String) : SymbolState × List TickAction :=
  if 10000 ≤ ts_ms - s.last_force_exit_attempt_ms then
    let s1 := { s with last_force_exit_attempt_ms := ts_ms }
    if oracle.close_ok then
      ({ s1 with
          position := none
          cooldown_until_ms := ts_ms + a.reentry_cooldown_min * 60000 },
        [TickAction.closeSubmit reason])
    else (s1, [TickAction.closeSubmit reason])
  else (s, [])

/-- The margin kill-switch check of the open-position branch (main.py
lines 660-689): maybe_exit polls the account and may submit a MARGIN_KILL
close. -/
def open_margin_branch (a : TickArgs) (ts_ms : Int) (oracle : TickOracle)
    (s : SymbolState) (pos : PositionState) : SymbolState × List TickAction :=
  match maybe_exit pos true oracle.acct a.margin_safety_multiple with
  | some _ =>
    if oracle.close_ok then
      ({ s with
          position := none
          cooldown_until_ms := ts_ms + a.reentry_cooldown_min * 60000 },
        [TickAction.closeSubmit "MARGIN_KILL"])
    else (s, [TickAction.closeSubmit "MARGIN_KILL"])
  | none => (s, [])

/-- The entry phase of the flat branch (main.py lines 750-844): the
decision gate, the UTC entry halt, the cooldown, the exchange residual
guard, the order-notional guard, the risk-bps computation, the entry
limit price, the quantity computation and the taker-only entry call. -/
def entry_phase (a : TickArgs) (sym : String)
    (effective_order_notional : Option ℚ) (ts_ms utc_minute : Int)
    (decision : Option DecisionIn) (funding : Option FundingInput)
    (oracle : TickOracle) (s : SymbolState) : SymbolState × List TickAction :=
  match decision with
  | none => (s, [])
  | some d =>
    if d.enter = false then (s, [])
    else if a.entry_halt_min ≤ utc_minute then (s, [])
    else if ts_ms < s.cooldown_until_ms then (s, [])
    else if (match oracle.live_qty_entry with
        | some q => decide (0 < q)
        | none => false) then (s, [])
    else
      match effective_order_notional with
      | none => (s, [])
      | some notional =>
        if notional ≤ 0 then (s, [])
        else
          match d.side with
          | none => (s, [])
          | some side =>
            let r := entry_risk_bps a.taker_fee_bps a.trailing_activation_bps
              a.trailing_activation_buffer_bps a.take_profit_bps
              a.min_take_profit_gap_bps d.opening_loss_bps
              (funding.bind (fun fu => fu.funding_rate))
            match get_entry_limit_price a.filters side oracle.entry_env with
            | none => (s, [])
            | some entry_limit_price =>
              match compute_qty_for_notional a.filters entry_limit_price
                  notional with
              | .error _ => (s, [])
              | .ok order_qty =>
                let outcome := entry a.filters oracle.entry_env sym side
                  order_qty ts_ms
                ({ s with position := outcome.pos },
                  if outcome.submitted then [TickAction.entrySubmit] else [])

/-- Embeds the per-symbol body of the control loop (main.py
lines 537-844), with order_placer enabled.  The open-position branch
checks, in priority order, the drawdown block, the daily cutoff, an
exchange-reported zero residual and the margin kill-switch; the flat
branch closes residual exchange positions under the drawdown block or
after the cutoff, and otherwise runs the entry phase. -/
def symbol_tick (a : TickArgs) (sym : String) (dd_blocked : Bool)
    (effective_order_notional : Option ℚ) (ts_ms utc_minute : Int)
    (decision : Option DecisionIn) (funding : Option FundingInput)
    (oracle : TickOracle) (s : SymbolState) : SymbolState × List TickAction :=
  match s.position with
  | some pos =>
    if dd_blocked then
      throttled_force_close a ts_ms oracle s "DAILY_DRAWDOWN_BLOCK"
    else if a.force_exit_min ≤ utc_minute then
      throttled_force_close a ts_ms oracle s "DAILY_CUTOFF"
    else
      match oracle.live_qty_open with
      | some q =>
        if q ≤ 0 then
          ({ s with
              position := none
              cooldown_until_ms := ts_ms + a.reentry_cooldown_min * 60000 },
            [])
        else open_margin_branch a ts_ms oracle s pos
      | none => open_margin_branch a ts_ms oracle s pos
  | none =>
    if dd_blocked then
      match oracle.live_amt_flat with
      | some amt =>
        if 0 < |amt| then
          throttled_force_close a ts_ms oracle s "DAILY_DRAWDOWN_BLOCK"
        else (s, [])
      | none => (s, [])
    else if a.force_exit_min ≤ utc_minute then
      match oracle.live_amt_flat with
      | some amt =>
        if 0 < |amt| then
          throttled_force_close a ts_ms oracle s "DAILY_CUTOFF"
        else
          entry_phase a sym effective_order_notional ts_ms utc_minute
            decision funding oracle s
      | none =>
        entry_phase a sym effective_order_notional ts_ms utc_minute
          decision funding oracle s
    else
      entry_phase a sym effective_order_notional ts_ms utc_minute
        decision funding oracle s

lemma throttled_force_close_no_entry (a : TickArgs) (ts_ms : Int)
    (oracle : TickOracle) (s : SymbolState) (reason : String) :
    TickAction.entrySubmit ∉ (throttled_force_close a ts_ms oracle s reason).2 := by
  rw [throttled_force_close]
  split
  · simp only []
    split
    · simp
    · simp
  · simp

lemma open_margin_branch_no_entry (a : TickArgs) (ts_ms : Int)
    (oracle : TickOracle) (s : SymbolState) (pos : PositionState) :
    TickAction.entrySubmit ∉ (open_margin_branch a ts_ms oracle s pos).2 := by
  rw [open_margin_branch]
  split
  · split
    · simp
    · simp
  · simp

lemma entry_phase_no_entry_on_residual (a : TickArgs) (sym : String)
    (en : Option ℚ) (ts_ms utc_minute : Int) (decision : Option DecisionIn)
    (funding : Option FundingInput) (oracle : TickOracle) (s : SymbolState)
    (q : ℚ) (hq : oracle.live_qty_entry = some q) (hq0 : 0 < q) :
    TickAction.entrySubmit ∉
      (entry_phase a sym en ts_ms utc_minute decision funding oracle s).2 := by
  unfold entry_phase
  cases decision with
  | none => simp
  | some d =>
    simp only []
    split
    · simp
    · split
      · simp
      · split
        · simp
        · split
          · simp
          · next hguard =>
            exfalso
            rw [hq] at hguard
            simp [hq0] at hguard

/-- C3: while a PositionState is recorded for a symbol, or the exchange
reports a strictly positive residual position for it, the symbol tick
never submits a new entry order.  The per-symbol position is an Option
(one dict slot per symbol in the source), so at most one PositionState
per symbol exists by construction. -/
theorem C3_no_entry_while_open (a : TickArgs) (sym : String)
    (dd_blocked : Bool) (en : Option ℚ) (ts_ms utc_minute : Int)
    (decision : Option DecisionIn) (funding : Option FundingInput)
    (oracle : TickOracle) (s : SymbolState)
    (h : s.position.isSome = true ∨
      (∃ q, oracle.live_qty_entry = some q ∧ 0 < q)) :
    TickAction.entrySubmit ∉
      (symbol_tick a sym dd_blocked en ts_ms utc_minute decision funding
        oracle s).2 := by
  unfold symbol_tick
  cases hpos : s.position with
  | some pos =>
    simp only []
    split
    · exact throttled_force_close_no_entry a ts_ms oracle s _
    · split
      · exact throttled_force_close_no_entry a ts_ms oracle s _
      · cases hq : oracle.live_qty_open with
        | some q =>
          simp only []
          split
          · simp
          · exact open_margin_branch_no_entry a ts_ms oracle s _
        | none => exact open_margin_branch_no_entry a ts_ms oracle s _
  | none =>
    rcases h with hsome | ⟨q, hq, hq0⟩
    · rw [hpos] at hsome
      exact Bool.noConfusion hsome
    · simp only []
      split
      · cases hamt : oracle.live_amt_flat with
        | some amt =>
          simp only []
          split
          · exact throttled_force_close_no_entry a ts_ms oracle s _
          · simp
        | none => simp
      · split
        · cases hamt : oracle.live_amt_flat with
          | some amt =>
            simp only []
            split
            · exact throttled_force_close_no_entry a ts_ms oracle s _
            · exact entry_phase_no_entry_on_residual a sym en ts_ms
                utc_minute decision funding oracle s q hq hq0
          | none =>
            exact entry_phase_no_entry_on_residual a sym en ts_ms
              utc_minute decision funding oracle s q hq hq0
        · exact entry_phase_no_entry_on_residual a sym en ts_ms
            utc_minute decision funding oracle s q hq hq0

/-- Control-loop arguments for the C3 witness (default CLI values,
entry halt 23:00 and cutoff 23:50 as minutes of the UTC day). -/
def c3Args : TickArgs :=
  { filters := c8F, entry_halt_min := 1380, force_exit_min := 1430,
    reentry_cooldown_min := 10, margin_safety_multiple := 6 / 5,
    taker_fee_bps := 4, take_profit_bps := 20, stop_loss_bps := 12,
    trailing_activation_bps := 8, trailing_activation_buffer_bps := 1 / 2,
    trailing_callback_bps := 6, min_take_profit_gap_bps := 4 }

/-- A tick oracle whose entry environment would accept an IOC entry. -/
def c3Oracle : TickOracle :=
  { live_qty_open := some 1, acct := none, live_amt_flat := none,
    live_qty_entry := some 1, close_ok := true,
    entry_env :=
      { bid_px := some 100, ask_px := some 101,
        submit := Except.ok { orderId := some 5 },
        query := Except.ok
          { status := "FILLED", executedQty := some 1, avgPrice := some 100 } } }

/-- Symbol state with an open recorded position. -/
def c3State : SymbolState :=
  { position := some c7Pos, cooldown_until_ms := 0,
    last_force_exit_attempt_ms := 0 }

/-- An enter decision for the C3 witness. -/
def c3Decision : DecisionIn :=
  { enter := true, side := some Side.BUY, opening_loss_bps := some 1 }

/-- C3 witness: with an open recorded position, an enter decision and a
live BBO, the tick still submits no entry order. -/
theorem C3_no_entry_while_open_witness :
    TickAction.entrySubmit ∉
      (symbol_tick c3Args "BTCUSDT" false none 20000 600 (some c3Decision)
        none c3Oracle c3State).2 :=
  C3_no_entry_while_open c3Args "BTCUSDT" false none 20000 600
    (some c3Decision) none c3Oracle c3State (Or.inl rfl)

end Aster
